import Mathlib

/-!
# dotback: credential lifecycle and configuration manager

A shallow embedding of the Go packages `internal/common/storage`,
`internal/common/config`, `internal/common/types` and of the login and logout
commands of `cmd/dotback`, with the properties the specification states about
them.

Conventions of the embedding.

* A Go `error` is its message text; a function returning `error` returns
  `Option Error` (`none` is `nil`), a function returning `(T, error)` returns
  `Except Error T` (every error return in the source carries the zero `T`).
* Go strings are Lean strings (valid Unicode text). A slice or a map is an
  `Option` of a list, `none` when it is `nil`; a map is the list of its entries,
  the first entry of a key being the one that counts.
* The pieces the code talks to (the keyring, the file system, the environment,
  standard input and output, the remote client) are explicit state: each
  function takes the state it reads and returns the state it leaves. A pointer
  the code writes through (the `config` of a Manager) is the value it points
  to, returned with the result.
* The libraries the code calls are modelled by what they document: the keyring
  of `go-keyring`, `encoding/json` on the types of `types.go` (at the level of
  JSON values, not of text), `os` on the configuration file, `fmt.Scanln` and
  `strings.TrimSpace` on characters. The text of the errors of `encoding/json`
  and `os` is shortened.
* Calls to the `logger` package are left out: they write diagnostic lines and
  return nothing the code looks at.
-/

namespace Dotback

/-- A Go error, by its message. -/
abbrev Error := String

/-! ## The platform keyring (`github.com/zalando/go-keyring`) -/

/-- The errors of the keyring library. `ErrNotFound` and `ErrSetDataTooBig` are the
library's sentinel values (compared by identity in the code); `backend` is any
failure of the platform store itself. -/
inductive KeyringError where
  | ErrNotFound
  | ErrSetDataTooBig
  | backend (msg : String)
  deriving DecidableEq, Repr

/-- The text of a keyring error (`err.Error()`). -/
def KeyringError.Error : KeyringError → String
  | .ErrNotFound => "secret not found in keyring"
  | .ErrSetDataTooBig => "data passed to Set was too big"
  | .backend msg => msg

/-- The platform keyring as the library presents it: the secrets held, keyed by
(service, user); `fault`, set when the platform store cannot be reached (every
call then fails with that message); `limit`, the longest secret in bytes the
platform accepts, when it has a limit. -/
structure Keyring where
  secrets : List ((String × String) × String)
  fault : Option String
  limit : Option Nat
  deriving DecidableEq, Repr

/-- The secret held under (service, user), if any. -/
def Keyring.entry (k : Keyring) (service user : String) : Option String :=
  k.secrets.lookup (service, user)

/-- The keyring with nothing held under (service, user). -/
def Keyring.without (k : Keyring) (service user : String) : Keyring :=
  { k with secrets := k.secrets.filter (fun e => decide (e.1 ≠ (service, user))) }

/-- The keyring with `secret`, and nothing else, held under (service, user). -/
def Keyring.holding (k : Keyring) (service user secret : String) : Keyring :=
  { k with secrets := ((service, user), secret) :: (k.without service user).secrets }

/-- The call keyring.Get(service, user). -/
def Keyring.Get (k : Keyring) (service user : String) : Except KeyringError String :=
  match k.fault with
  | some msg => .error (.backend msg)
  | none =>
    match k.entry service user with
    | some secret => .ok secret
    | none => .error .ErrNotFound

/-- The call keyring.Set(service, user, password): replaces what is held under the key. -/
def Keyring.Set (k : Keyring) (service user password : String) : Option KeyringError × Keyring :=
  match k.fault with
  | some msg => (some (.backend msg), k)
  | none =>
    if k.limit.any (fun n => decide (n < password.utf8ByteSize)) then
      (some .ErrSetDataTooBig, k)
    else
      (none, k.holding service user password)

/-- The call keyring.Delete(service, user). -/
def Keyring.Delete (k : Keyring) (service user : String) : Option KeyringError × Keyring :=
  match k.fault with
  | some msg => (some (.backend msg), k)
  | none =>
    match k.entry service user with
    | none => (some .ErrNotFound, k)
    | some _ => (none, k.without service user)

/-! ## `internal/common/storage/keyring.go` -/

def serviceName : String := "dotback"

def tokenKey : String := "github_token"

/-- KeyringStorage.StoreToken. -/
def KeyringStorage.StoreToken (token : String) (k : Keyring) : Option Error × Keyring :=
  match k.Set serviceName tokenKey token with
  | (some err, k') => (some ("failed to store token: " ++ err.Error), k')
  | (none, k') => (none, k')

/-- KeyringStorage.GetToken. -/
def KeyringStorage.GetToken (k : Keyring) : Except Error String :=
  match k.Get serviceName tokenKey with
  | .error err =>
    if err = KeyringError.ErrNotFound then .ok ""
    else .error ("failed to retrieve token: " ++ err.Error)
  | .ok token => .ok token

/-- KeyringStorage.DeleteToken. -/
def KeyringStorage.DeleteToken (k : Keyring) : Option Error × Keyring :=
  match k.Delete serviceName tokenKey with
  | (some err, k') =>
    if err ≠ KeyringError.ErrNotFound then (some ("failed to delete token: " ++ err.Error), k')
    else (none, k')
  | (none, k') => (none, k')

/-! ## `internal/common/types/types.go` -/

/-- A `time.Time` value, in the two parts that matter to persistence: `stamp`, the
instant with its zone offset, written as the RFC 3339 text (nanosecond precision)
that `Time.MarshalJSON` produces for it; `mono`, the monotonic clock reading that
values from `time.Now()` carry and that no encoding keeps. -/
structure Time where
  stamp : String
  mono : Option Nat
  deriving DecidableEq, Repr

/-- The zero `time.Time`. -/
def Time.zero : Time := { stamp := "0001-01-01T00:00:00Z", mono := none }

/-- DotFile represents a dotfile configuration. -/
structure DotFile where
  Path : String
  LastModified : Time
  Hash : String
  IsSymlink : Bool
  deriving DecidableEq, Repr

/-- App represents an application configuration. A slice or map field is `none`
when it is `nil`. -/
structure App where
  Name : String
  Version : String
  ConfigFiles : Option (List DotFile)
  Dependencies : Option (List (String × String))
  deriving DecidableEq, Repr

/-- Machine represents a machine configuration. -/
structure Machine where
  Hostname : String
  LastSync : Time
  DotFiles : Option (List DotFile)
  Apps : Option (List App)
  Labels : Option (List (String × String))
  Description : String
  deriving DecidableEq, Repr

/-- Config represents the application configuration. -/
structure Config where
  GitHubToken : String
  LastBackup : Time
  Machine : Machine
  deriving DecidableEq, Repr

def DotFile.zero : DotFile :=
  { Path := "", LastModified := Time.zero, Hash := "", IsSymlink := false }

def App.zero : App :=
  { Name := "", Version := "", ConfigFiles := none, Dependencies := none }

def Machine.zero : Machine :=
  { Hostname := "", LastSync := Time.zero, DotFiles := none, Apps := none, Labels := none,
    Description := "" }

/-- The value of `types.Config{}`. -/
def Config.zero : Config :=
  { GitHubToken := "", LastBackup := Time.zero, Machine := Machine.zero }

/-- The methods of `types.GitHubClient` that login uses, as the answers the client
gives: `ValidateToken token` is the error it returns, `GetUser` its result. The
answers of a client do not change during a run. -/
structure GitHubClient where
  ValidateToken : String → Option Error
  GetUser : Except Error String

/-! ## `internal/auth/github/mock_client.go` -/

/-- The test double: `NewMockClient(token, shouldFail, mockUsername)`. -/
def NewMockClient (_token : String) (shouldFail : Bool) (mockUsername : String) :
    GitHubClient :=
  { ValidateToken := fun _ => if shouldFail then some "mock validation failed" else none
    GetUser := if shouldFail then .error "mock user fetch failed" else .ok mockUsername }

/-! ## `internal/common/config/manager.go`: the manager and its token methods -/

def configFileName : String := "config.json"

/-- The call filepath.Join(dir, name) on two clean path elements. -/
def filepathJoin (dir name : String) : String :=
  if dir = "" then name else dir ++ "/" ++ name

/-- DefaultGetConfigDir, from the result of os.UserHomeDir(). -/
def DefaultGetConfigDir (userHomeDir : Except Error String) : Except Error String :=
  match userHomeDir with
  | .error err => .error ("error getting home directory: " ++ err)
  | .ok homeDir => .ok (filepathJoin (filepathJoin homeDir ".config") "dotback")

/-- Manager handles configuration storage and retrieval. The `storage` field of the
source is a `KeyringStorage` with no fields of its own: the keyring it reaches is
passed to the token methods. `config` is a pointer, `none` when `nil`. -/
structure Manager where
  configPath : String
  config : Option Config
  deriving DecidableEq, Repr

/-- NewManager, from the result of the current `GetConfigDir`. -/
def NewManager (getConfigDir : Except Error String) : Except Error Manager :=
  match getConfigDir with
  | .error err => .error err
  | .ok configDir =>
    .ok { configPath := filepathJoin configDir configFileName, config := some Config.zero }

/-- Manager.GetToken. -/
def Manager.GetToken (_m : Manager) (k : Keyring) : Except Error String :=
  KeyringStorage.GetToken k

/-- Manager.SetToken. -/
def Manager.SetToken (_m : Manager) (token : String) (k : Keyring) : Option Error × Keyring :=
  if token = "" then KeyringStorage.DeleteToken k
  else KeyringStorage.StoreToken token k

/-! ## `cmd/dotback/login.go` -/

/-- What a command does to the outside, in the order it does it. -/
inductive Event where
  | getConfigDir
  | getToken
  | setToken (token : String)
  | getenv (name : String)
  | stdout (text : String)
  | scanln
  | validateToken (token : String)
  | getUser
  deriving DecidableEq, Repr

/-- The surroundings of a command: the result the current `config.GetConfigDir`
gives, the keyring, the GITHUB_TOKEN environment variable (`none` when unset), the
unread standard input, the client `github.NewClient(token)` builds for each token,
and the events so far. -/
structure World where
  GetConfigDir : Except Error String
  keyring : Keyring
  GITHUB_TOKEN : Option String
  stdin : List Char
  NewClient : String → GitHubClient
  trace : List Event

/-- Record an event. -/
def World.emit (w : World) (e : Event) : World :=
  { w with trace := w.trace ++ [e] }

/-- The white space of `fmt` scanning and of `strings.TrimSpace`. -/
def isSpace (c : Char) : Bool :=
  let n := c.toNat
  (0x09 ≤ n && n ≤ 0x0d) || n == 0x20 || n == 0x85 || n == 0xa0 || n == 0x1680 ||
  (0x2000 ≤ n && n ≤ 0x200a) || n == 0x2028 || n == 0x2029 || n == 0x202f ||
  n == 0x205f || n == 0x3000

/-- After the operand of Scanln: blanks are read up to and with the newline; a
character that is not white space is read too and ends the scan. -/
def restOfLine : List Char → List Char
  | [] => []
  | c :: cs => if c = '\n' then cs else if isSpace c then restOfLine cs else cs

/-- The call fmt.Scanln(&token) on the unread input: the word it stores (the first
blank-separated word of the first line; nothing is stored when that line is blank
or the input is at its end) and the input left unread. The error Scanln returns is
dropped by the caller. -/
def Scanln : List Char → Option String × List Char
  | [] => (none, [])
  | c :: cs =>
    if c = '\n' then (none, cs)
    else if isSpace c then Scanln cs
    else
      (some (String.mk ((c :: cs).takeWhile (fun x => !isSpace x))),
        restOfLine ((c :: cs).dropWhile (fun x => !isSpace x)))

/-- The call strings.TrimSpace(s). -/
def TrimSpace (s : String) : String :=
  String.mk ((s.data.dropWhile isSpace).reverse.dropWhile isSpace).reverse

/-- The client validateAndShowUser talks to for `token` (lines 102 to 108): the test
client when one is given, else `github.NewClient(token)`. -/
def clientFor (testClient : Option GitHubClient) (w : World) (token : String) : GitHubClient :=
  match testClient with
  | some c => c
  | none => w.NewClient token

/-- The function validateAndShowUser. -/
def validateAndShowUser (token : String) (testClient : Option GitHubClient) (w : World) :
    Option Error × World :=
  let client := clientFor testClient w token
  let w := w.emit (.validateToken token)
  match client.ValidateToken token with
  | some _ => (some "Error: Invalid GitHub token", w)
  | none =>
    let w := w.emit .getUser
    match client.GetUser with
    | .error _ => (some "Error: Could not get user information", w)
    | .ok username =>
      (none, w.emit (.stdout ("Successfully logged in as " ++ username ++ "\n")))

/-- Lines 74 to 80 of runLogin: the token from the environment variable or the prompt. -/
def acquireToken (w : World) : String × World :=
  let w := w.emit (.getenv "GITHUB_TOKEN")
  let token := w.GITHUB_TOKEN.getD ""
  if token = "" then
    let w := w.emit (.stdout "Enter your GitHub Personal Access Token: ")
    let r := Scanln w.stdin
    let w := { w with stdin := r.2 }.emit .scanln
    (TrimSpace (r.1.getD token), w)
  else (token, w)

/-- Lines 82 to 98 of runLogin: the empty token is refused, any other is validated
and then stored. -/
def loginWithToken (configManager : Manager) (token : String) (testClient : Option GitHubClient)
    (w : World) : Option Error × World :=
  if token = "" then (some "Error: GitHub token is required", w)
  else
    match validateAndShowUser token testClient w with
    | (some err, w) => (some err, w)
    | (none, w) =>
      let w := w.emit (.setToken token)
      match configManager.SetToken token w.keyring with
      | (some _, k) => (some "Error: Could not store token securely", { w with keyring := k })
      | (none, k) => (none, { w with keyring := k })

/-- Lines 74 to 98 of runLogin: the login with a new token, reached when no stored
token blocks it. -/
def loginWithNewToken (configManager : Manager) (testClient : Option GitHubClient) (w : World) :
    Option Error × World :=
  let tw := acquireToken w
  loginWithToken configManager tw.1 testClient tw.2

/-- The function runLogin (its `cmd` and `args` are not used). -/
def runLogin (testClient : Option GitHubClient) (w : World) : Option Error × World :=
  let w := w.emit .getConfigDir
  match NewManager w.GetConfigDir with
  | .error _ => (some "Error: Could not initialize configuration", w)
  | .ok configManager =>
    let w := w.emit .getToken
    match configManager.GetToken w.keyring with
    | .error _ => (some "Error: Could not check existing login state", w)
    | .ok existingToken =>
      if existingToken ≠ "" then
        match validateAndShowUser existingToken testClient w with
        | (none, w) => (some "Already logged in. Use 'logout' command to log out first", w)
        | (some _, w) => loginWithNewToken configManager testClient w
      else loginWithNewToken configManager testClient w

/-- The function runLogout. -/
def runLogout (w : World) : Option Error × World :=
  let w := w.emit .getConfigDir
  match NewManager w.GetConfigDir with
  | .error _ => (some "Error: Could not initialize configuration", w)
  | .ok configManager =>
    let w := w.emit (.setToken "")
    match configManager.SetToken "" w.keyring with
    | (some _, k) => (some "Error: Could not remove stored token", { w with keyring := k })
    | (none, k) => (none, { w with keyring := k }.emit (.stdout "Successfully logged out\n"))

/-- The events of a run that started in `w` and ended in `w'`. -/
def World.eventsSince (w' w : World) : List Event :=
  w'.trace.drop w.trace.length

/-- An event that is a call of a method of the GitHub client. -/
def Event.isClientCall : Event → Bool
  | .validateToken _ => true
  | .getUser => true
  | _ => false

/-- An event that writes to the credential store. -/
def Event.isSetToken : Event → Bool
  | .setToken _ => true
  | _ => false

/-- The token of the first ValidateToken call in a list of events. -/
def firstValidated : List Event → Option String
  | [] => none
  | .validateToken t :: _ => some t
  | _ :: es => firstValidated es

/-- The candidate token a run put to the client: the token of the first
ValidateToken call made after the environment variable was read. -/
def candidateValidated : List Event → Option String
  | [] => none
  | .getenv _ :: es => firstValidated es
  | _ :: es => candidateValidated es

/-- What the success line of validateAndShowUser begins with, before the user name. -/
def successLead : String := "Successfully logged in as "

/-- An event that writes a line "Successfully logged in as <user>" to standard output. -/
def Event.isSuccessLine : Event → Bool
  | .stdout text => text.data.take successLead.length == successLead.data
  | _ => false

/-- The success lines among the events. -/
def successLines (events : List Event) : List Event :=
  events.filter Event.isSuccessLine

/-! ## JSON documents (`encoding/json`) -/

/-- A JSON document as `encoding/json` reads and writes it: the value, not its
spelling (white space and escapes are not kept). A number keeps its literal. -/
inductive Json where
  | null
  | bool (b : Bool)
  | num (lit : String)
  | str (s : String)
  | arr (items : List Json)
  | obj (members : List (String × Json))

/-- The name `encoding/json` gives the kind of a value in its error texts. -/
def Json.kind : Json → String
  | .null => "null"
  | .bool _ => "bool"
  | .num _ => "number"
  | .str _ => "string"
  | .arr _ => "array"
  | .obj _ => "object"

/-! ### Time stamps -/

/-- The first `n` characters read as a decimal number, and the rest. -/
def takeNum (n : Nat) (cs : List Char) : Option (Nat × List Char) :=
  if (cs.take n).length = n ∧ (cs.take n).all Char.isDigit = true then
    some ((cs.take n).foldl (fun acc c => 10 * acc + (c.toNat - 48)) 0, cs.drop n)
  else none

/-- The rest after the character `c`. -/
def takeChar (c : Char) : List Char → Option (List Char)
  | [] => none
  | x :: xs => if x = c then some xs else none

/-- Days of a month. -/
def daysIn (month year : Nat) : Nat :=
  if month = 2 then
    (if year % 4 = 0 ∧ (year % 100 ≠ 0 ∨ year % 400 = 0) then 29 else 28)
  else if month = 4 ∨ month = 6 ∨ month = 9 ∨ month = 11 then 30
  else 31

/-- The function `getnum` of package time: a number of two digits, or of one digit
when no second digit follows and the width is not `fixed`; and the rest. -/
def getnum (fixed : Bool) (cs : List Char) : Option (Nat × List Char) :=
  match cs with
  | [] => none
  | c :: rest =>
    if c.isDigit then
      match rest with
      | [] => if fixed then none else some (c.toNat - 48, [])
      | c₂ :: rest₂ =>
        if c₂.isDigit then some (10 * (c.toNat - 48) + (c₂.toNat - 48), rest₂)
        else if fixed then none else some (c.toNat - 48, rest)
    else none

/-- A number below 100 in two digits. -/
def twoDigits (n : Nat) : List Char :=
  [Char.ofNat (48 + n / 10), Char.ofNat (48 + n % 10)]

/-- The fraction of a second that may follow the seconds: a period or a comma and
digits, of which the first nine count. The result is the fraction as
`Time.MarshalJSON` writes it (a period and the digits without trailing zeros, nothing
for a fraction of zero), and the rest. -/
def takeFraction (cs : List Char) : List Char × List Char :=
  match cs with
  | sep :: c :: rest =>
    if (sep = '.' ∨ sep = ',') ∧ c.isDigit = true then
      let kept := (((c :: rest).takeWhile Char.isDigit).take 9).reverse.dropWhile
        (fun x => x == '0')
      (if kept = [] then [] else '.' :: kept.reverse, (c :: rest).dropWhile Char.isDigit)
    else ([], cs)
  | _ => ([], cs)

/-- The zone that ends the text: `Z`, or a sign, two digits of hours, a colon and
two digits of minutes, where package time lets 24 hours and 60 minutes through. The
result is whether the offset is west of UTC, the offset in minutes, and the rest. -/
def takeZone (cs : List Char) : Option (Bool × Nat × List Char) :=
  match cs with
  | [] => none
  | sign :: rest =>
    if sign = 'Z' then some (false, 0, rest)
    else if sign = '+' ∨ sign = '-' then
      (do
        let (hours, r) ← getnum true rest
        let r ← takeChar ':' r
        let (minutes, r) ← getnum true r
        if hours ≤ 24 ∧ minutes ≤ 60 then pure (decide (sign = '-'), hours * 60 + minutes, r)
        else none)
    else none

/-- The zone as `Time.MarshalJSON` writes it: `Z` for the offset zero, else the sign,
the hours and the minutes. -/
def zoneText (west : Bool) (offset : Nat) : List Char :=
  if offset = 0 then ['Z']
  else
    (if west then '-' else '+') :: (twoDigits (offset / 60) ++ ':' :: twoDigits (offset % 60))

/-- The date and the time of day are of the calendar and the clock. -/
def validClock (year month day hour min sec : Nat) : Bool :=
  decide (1 ≤ month) && decide (month ≤ 12) && decide (1 ≤ day) &&
    decide (day ≤ daysIn month year) && decide (hour < 24) && decide (min < 60) &&
    decide (sec < 60)

/-- The date and the time of day as `Time.MarshalJSON` writes them, after the year. -/
def clockText (month day hour min sec : Nat) : List Char :=
  '-' :: twoDigits month ++ '-' :: twoDigits day ++ 'T' :: twoDigits hour ++
    ':' :: twoDigits min ++ ':' :: twoDigits sec

/-- The end of a time, after the seconds: an optional fraction, a zone, and nothing
more. The result is the two as `Time.MarshalJSON` writes them, and the hours of the
zone offset. -/
def parseFractionZone (cs : List Char) : Option (List Char × Nat) :=
  match takeZone (takeFraction cs).2 with
  | some (west, offset, []) => some ((takeFraction cs).1 ++ zoneText west offset, offset / 60)
  | _ => none

/-- The date and the time of day of a text, up to the seconds, and the rest. The
result is the numbers read: year, month, day, hour, minutes, seconds. -/
def parseClock (cs : List Char) : Option ((Nat × Nat × Nat × Nat × Nat × Nat) × List Char) :=
  (do
    let (year, r) ← takeNum 4 cs
    let r ← takeChar '-' r
    let (month, r) ← getnum true r
    let r ← takeChar '-' r
    let (day, r) ← getnum true r
    let r ← takeChar 'T' r
    let (hour, r) ← getnum false r
    let r ← takeChar ':' r
    let (min, r) ← getnum true r
    let r ← takeChar ':' r
    let (sec, r) ← getnum true r
    pure ((year, month, day, hour, min, sec), r))

/-- The reading of a time by `Time.UnmarshalJSON`, which is that of time.Parse with the
layout RFC3339 (the strict check of RFC 3339 is switched off in package time): a year
of four digits, a month and a day of two digits, `T`, an hour of one or two digits,
minutes and seconds of two digits, an optional fraction, a zone, and nothing more;
the date must be one of the calendar. The result is the stamp of the time read, that
is the text `Time.MarshalJSON` writes for it, and the hours of its zone offset. -/
def parseTime (s : String) : Option (String × Nat) :=
  match parseClock s.data with
  | none => none
  | some ((year, month, day, hour, min, sec), r) =>
    match parseFractionZone r with
    | none => none
    | some (tail, zoneHours) =>
      if validClock year month day hour min sec then
        some (String.mk (s.data.take 4 ++ clockText month day hour min sec ++ tail), zoneHours)
      else none

/-- The stamps `Time.MarshalJSON` writes: the stamp of a time (reading it gives the
same text back) whose zone offset is below 24 hours; the year of a stamp has four
digits. -/
def isRFC3339 (s : String) : Bool :=
  match parseTime s with
  | some (stamp, zoneHours) => stamp == s && decide (zoneHours < 24)
  | none => false

/-- The stamp of a time whose zone offset is of 24 hours or more. -/
def zoneOutOfRange (s : String) : Bool :=
  match parseTime s with
  | some (stamp, zoneHours) => stamp == s && decide (24 ≤ zoneHours)
  | none => false

/-- The method Time.MarshalJSON: the stamp as a JSON string; an error for a time RFC
3339 cannot write (a year outside 0 to 9999, a zone hour outside 0 to 23). -/
def Time.MarshalJSON (t : Time) : Except Error Json :=
  if isRFC3339 t.stamp then .ok (.str t.stamp)
  else if zoneOutOfRange t.stamp then
    .error "Time.MarshalJSON: timezone hour outside of range [0,23]"
  else .error "Time.MarshalJSON: year outside of range [0,9999]"

/-! ### Encoding (`json.MarshalIndent`) -/

/-- The error `encoding/json` returns when a MarshalJSON method fails. -/
def marshalerError (inner : Error) : Error :=
  "json: error calling MarshalJSON for type time.Time: " ++ inner

/-- One entry for each key of a map held as a list of entries (the first entry of a
key is the one that counts). -/
def dedupKeys : List (String × String) → List (String × String)
  | [] => []
  | e :: es => e :: (dedupKeys es).filter (fun x => decide (x.1 ≠ e.1))

/-- The entries written for a map: one for each key, in the order of the keys. -/
def writtenEntries (entries : List (String × String)) : List (String × String) :=
  (dedupKeys entries).insertionSort (fun a b => a.1 ≤ b.1)

/-- A `map[string]string` as JSON: `null` for the nil map, else an object with the
keys in sorted order. -/
def encodeMap : Option (List (String × String)) → Json
  | none => .null
  | some entries => .obj ((writtenEntries entries).map (fun e => (e.1, Json.str e.2)))

/-- A DotFile as JSON, by its field tags. -/
def DotFile.encode (f : DotFile) : Except Error Json :=
  match f.LastModified.MarshalJSON with
  | .error e => .error (marshalerError e)
  | .ok t =>
    .ok (.obj [("path", .str f.Path), ("last_modified", t), ("hash", .str f.Hash),
      ("is_symlink", .bool f.IsSymlink)])

/-- The elements of a slice as JSON, in order. -/
def encodeElems {α : Type} (enc : α → Except Error Json) : List α → Except Error (List Json)
  | [] => .ok []
  | x :: xs =>
    match enc x with
    | .error e => .error e
    | .ok j =>
      match encodeElems enc xs with
      | .error e => .error e
      | .ok js => .ok (j :: js)

/-- A slice as JSON: `null` for the nil slice, else an array. -/
def encodeSlice {α : Type} (enc : α → Except Error Json) : Option (List α) → Except Error Json
  | none => .ok .null
  | some xs =>
    match encodeElems enc xs with
    | .error e => .error e
    | .ok js => .ok (.arr js)

/-- An App as JSON, by its field tags. -/
def App.encode (a : App) : Except Error Json :=
  match encodeSlice DotFile.encode a.ConfigFiles with
  | .error e => .error e
  | .ok files =>
    .ok (.obj [("name", .str a.Name), ("version", .str a.Version), ("config_files", files),
      ("dependencies", encodeMap a.Dependencies)])

/-- A Machine as JSON, by its field tags. -/
def Machine.encode (m : Machine) : Except Error Json :=
  match m.LastSync.MarshalJSON with
  | .error e => .error (marshalerError e)
  | .ok lastSync =>
    match encodeSlice DotFile.encode m.DotFiles with
    | .error e => .error e
    | .ok dotFiles =>
      match encodeSlice App.encode m.Apps with
      | .error e => .error e
      | .ok apps =>
        .ok (.obj [("hostname", .str m.Hostname), ("last_sync", lastSync),
          ("dot_files", dotFiles), ("apps", apps), ("labels", encodeMap m.Labels),
          ("description", .str m.Description)])

/-- A Config as JSON, by its field tags. -/
def Config.encode (c : Config) : Except Error Json :=
  match c.LastBackup.MarshalJSON with
  | .error e => .error (marshalerError e)
  | .ok lastBackup =>
    match c.Machine.encode with
    | .error e => .error e
    | .ok machine =>
      .ok (.obj [("github_token", .str c.GitHubToken), ("last_backup", lastBackup),
        ("machine", machine)])

/-- The call json.MarshalIndent(config, "", "  ") on a `*types.Config`: the document it
writes (a nil pointer is written as `null`). -/
def MarshalIndent (config : Option Config) : Except Error Json :=
  match config with
  | none => .ok .null
  | some c => c.encode

/-! ### Decoding (`json.Unmarshal`) -/

/-- How the decoding of a value ended: without error; with a type mismatch, which
`encoding/json` records (the first one) and decodes on; or stopped by the error of an
UnmarshalJSON method. -/
inductive Outcome where
  | ok
  | typeError (msg : String)
  | aborted (msg : String)
  deriving DecidableEq, Repr

/-- The outcome of two decodings in a row, the second run because the first did not
stop the decoder. -/
def Outcome.andThen : Outcome → Outcome → Outcome
  | .ok, o => o
  | .typeError _, .aborted e => .aborted e
  | .typeError e, _ => .typeError e
  | .aborted e, _ => .aborted e

/-- The error Unmarshal returns for an outcome. -/
def Outcome.error : Outcome → Option Error
  | .ok => none
  | .typeError e => some e
  | .aborted e => some e

/-- The text of an UnmarshalTypeError; `field` names the struct field, empty at the
top of the document. -/
def typeErrorText (j : Json) (field goType : String) : String :=
  if field = "" then "json: cannot unmarshal " ++ j.kind ++ " into Go value of type " ++ goType
  else
    "json: cannot unmarshal " ++ j.kind ++ " into Go struct field " ++ field ++ " of type " ++
      goType

/-- A field one level down. -/
def fieldPath (stack name : String) : String :=
  if stack = "" then name else stack ++ "." ++ name

/-- The folding of `encoding/json` on a rune: letters of ASCII to upper case, and the
two other runes that fold to a letter of ASCII (the long s, U+017F, and the Kelvin
sign, U+212A). -/
def foldRune (c : Char) : Char :=
  if 'a' ≤ c ∧ c ≤ 'z' then Char.ofNat (c.toNat - 32)
  else if c.toNat = 0x17F then 'S'
  else if c.toNat = 0x212A then 'K'
  else c

/-- The folded form of a key. -/
def foldName (s : String) : String :=
  String.mk (s.data.map foldRune)

/-- The struct field a key of an object goes to: the field with that tag, else the
first field whose tag is the key up to case; none for an unknown key. -/
def fieldFor (tags : List String) (key : String) : Option String :=
  if tags.contains key then some key
  else tags.find? (fun tag => foldName tag == foldName key)

/-- Decoding into a `string`. -/
def decodeString (field : String) (j : Json) (old : String) : String × Outcome :=
  match j with
  | .str s => (s, .ok)
  | .null => (old, .ok)
  | other => (old, .typeError (typeErrorText other field "string"))

/-- Decoding into a `bool`. -/
def decodeBool (field : String) (j : Json) (old : Bool) : Bool × Outcome :=
  match j with
  | .bool b => (b, .ok)
  | .null => (old, .ok)
  | other => (old, .typeError (typeErrorText other field "bool"))

/-- Decoding into a `time.Time` (the method Time.UnmarshalJSON): `null` leaves the
value; a string is read as a time, and the value is the time read, or the zero time
when the text does not read as one. The method reads the text as the file spells it
between the quotes, which is the value of the string for a time spelled without
escapes; the error of package time says which part of the text did not read, here it
names the text only. -/
def decodeTime (j : Json) (old : Time) : Time × Outcome :=
  match j with
  | .null => (old, .ok)
  | .str s =>
    match parseTime s with
    | some (stamp, _) => ({ stamp := stamp, mono := none }, .ok)
    | none => (Time.zero, .aborted ("parsing time \"" ++ s ++ "\": cannot parse as RFC 3339"))
  | _ => (old, .aborted "Time.UnmarshalJSON: input is not a JSON string")

/-- The members of an object decoded one after the other into a struct: a member with
an unknown key is skipped, a later member of the same field decodes into what the
earlier left. -/
def decodeMembers {α : Type} (tags : List String) (setField : String → Json → α → α × Outcome) :
    List (String × Json) → α → α × Outcome
  | [], x => (x, .ok)
  | (key, j) :: rest, x =>
    match fieldFor tags key with
    | none => decodeMembers tags setField rest x
    | some tag =>
      match setField tag j x with
      | (x', .aborted e) => (x', .aborted e)
      | (x', o) =>
        let r := decodeMembers tags setField rest x'
        (r.1, o.andThen r.2)

/-- The items of an array decoded into a slice: item i into the element i the slice
has (a zero element past its length); a decoder that stops leaves the later elements. -/
def decodeElems {α : Type} (dec : Json → α → α × Outcome) (zero : α) :
    List Json → List α → List α × Outcome
  | [], _ => ([], .ok)
  | j :: js, old =>
    match dec j (old.headD zero) with
    | (x, .aborted e) => (x :: old.tail, .aborted e)
    | (x, o) =>
      let r := decodeElems dec zero js old.tail
      (x :: r.1, o.andThen r.2)

/-- Decoding into a slice: `null` makes it nil, an array sets its elements. -/
def decodeSlice {α : Type} (dec : Json → α → α × Outcome) (zero : α) (field goType : String)
    (j : Json) (old : Option (List α)) : Option (List α) × Outcome :=
  match j with
  | .arr items =>
    let r := decodeElems dec zero items (old.getD [])
    (some r.1, r.2)
  | .null => (none, .ok)
  | other => (old, .typeError (typeErrorText other field goType))

/-- The map with `value` under `key`. -/
def setEntry (key value : String) (entries : List (String × String)) : List (String × String) :=
  (key, value) :: entries.filter (fun e => decide (e.1 ≠ key))

/-- The members of an object stored into a map: each value is decoded into an empty
string and put under its key. -/
def decodeEntries (field : String) :
    List (String × Json) → List (String × String) → List (String × String) × Outcome
  | [], m => (m, .ok)
  | (key, j) :: rest, m =>
    let v := decodeString field j ""
    let r := decodeEntries field rest (setEntry key v.1 m)
    (r.1, v.2.andThen r.2)

/-- Decoding into a `map[string]string`: `null` makes it nil, an object adds its
members to the map (a nil map is made first). -/
def decodeMap (field : String) (j : Json) (old : Option (List (String × String))) :
    Option (List (String × String)) × Outcome :=
  match j with
  | .obj members =>
    let r := decodeEntries field members (old.getD [])
    (some r.1, r.2)
  | .null => (none, .ok)
  | other => (old, .typeError (typeErrorText other field "map[string]string"))

def DotFile.tags : List String := ["path", "last_modified", "hash", "is_symlink"]

/-- One member of an object decoded into its field of a DotFile. -/
def DotFile.setField (stack tag : String) (j : Json) (f : DotFile) : DotFile × Outcome :=
  if tag = "path" then
    let r := decodeString ("DotFile." ++ fieldPath stack tag) j f.Path
    ({ f with Path := r.1 }, r.2)
  else if tag = "last_modified" then
    let r := decodeTime j f.LastModified
    ({ f with LastModified := r.1 }, r.2)
  else if tag = "hash" then
    let r := decodeString ("DotFile." ++ fieldPath stack tag) j f.Hash
    ({ f with Hash := r.1 }, r.2)
  else if tag = "is_symlink" then
    let r := decodeBool ("DotFile." ++ fieldPath stack tag) j f.IsSymlink
    ({ f with IsSymlink := r.1 }, r.2)
  else (f, .ok)

/-- Decoding into a DotFile, the value of the field `stack` of the struct `owner`. -/
def DotFile.decode (owner stack : String) (j : Json) (f : DotFile) : DotFile × Outcome :=
  match j with
  | .obj members => decodeMembers DotFile.tags (DotFile.setField stack) members f
  | .null => (f, .ok)
  | other => (f, .typeError (typeErrorText other (owner ++ "." ++ stack) "types.DotFile"))

def App.tags : List String := ["name", "version", "config_files", "dependencies"]

/-- One member of an object decoded into its field of an App. -/
def App.setField (stack tag : String) (j : Json) (a : App) : App × Outcome :=
  if tag = "name" then
    let r := decodeString ("App." ++ fieldPath stack tag) j a.Name
    ({ a with Name := r.1 }, r.2)
  else if tag = "version" then
    let r := decodeString ("App." ++ fieldPath stack tag) j a.Version
    ({ a with Version := r.1 }, r.2)
  else if tag = "config_files" then
    let r := decodeSlice (DotFile.decode "App" (fieldPath stack tag)) DotFile.zero
      ("App." ++ fieldPath stack tag) "[]types.DotFile" j a.ConfigFiles
    ({ a with ConfigFiles := r.1 }, r.2)
  else if tag = "dependencies" then
    let r := decodeMap ("App." ++ fieldPath stack tag) j a.Dependencies
    ({ a with Dependencies := r.1 }, r.2)
  else (a, .ok)

/-- Decoding into an App, the value of the field `stack` of the struct `owner`. -/
def App.decode (owner stack : String) (j : Json) (a : App) : App × Outcome :=
  match j with
  | .obj members => decodeMembers App.tags (App.setField stack) members a
  | .null => (a, .ok)
  | other => (a, .typeError (typeErrorText other (owner ++ "." ++ stack) "types.App"))

def Machine.tags : List String :=
  ["hostname", "last_sync", "dot_files", "apps", "labels", "description"]

/-- One member of an object decoded into its field of a Machine. -/
def Machine.setField (stack tag : String) (j : Json) (m : Machine) : Machine × Outcome :=
  if tag = "hostname" then
    let r := decodeString ("Machine." ++ fieldPath stack tag) j m.Hostname
    ({ m with Hostname := r.1 }, r.2)
  else if tag = "last_sync" then
    let r := decodeTime j m.LastSync
    ({ m with LastSync := r.1 }, r.2)
  else if tag = "dot_files" then
    let r := decodeSlice (DotFile.decode "Machine" (fieldPath stack tag)) DotFile.zero
      ("Machine." ++ fieldPath stack tag) "[]types.DotFile" j m.DotFiles
    ({ m with DotFiles := r.1 }, r.2)
  else if tag = "apps" then
    let r := decodeSlice (App.decode "Machine" (fieldPath stack tag)) App.zero
      ("Machine." ++ fieldPath stack tag) "[]types.App" j m.Apps
    ({ m with Apps := r.1 }, r.2)
  else if tag = "labels" then
    let r := decodeMap ("Machine." ++ fieldPath stack tag) j m.Labels
    ({ m with Labels := r.1 }, r.2)
  else if tag = "description" then
    let r := decodeString ("Machine." ++ fieldPath stack tag) j m.Description
    ({ m with Description := r.1 }, r.2)
  else (m, .ok)

/-- Decoding into a Machine, the value of the field `stack` of the struct `owner`. -/
def Machine.decode (owner stack : String) (j : Json) (m : Machine) : Machine × Outcome :=
  match j with
  | .obj members => decodeMembers Machine.tags (Machine.setField stack) members m
  | .null => (m, .ok)
  | other => (m, .typeError (typeErrorText other (owner ++ "." ++ stack) "types.Machine"))

def Config.tags : List String := ["github_token", "last_backup", "machine"]

/-- One member of an object decoded into its field of a Config. -/
def Config.setField (tag : String) (j : Json) (c : Config) : Config × Outcome :=
  if tag = "github_token" then
    let r := decodeString ("Config." ++ tag) j c.GitHubToken
    ({ c with GitHubToken := r.1 }, r.2)
  else if tag = "last_backup" then
    let r := decodeTime j c.LastBackup
    ({ c with LastBackup := r.1 }, r.2)
  else if tag = "machine" then
    let r := Machine.decode "Config" tag j c.Machine
    ({ c with Machine := r.1 }, r.2)
  else (c, .ok)

/-- Decoding a document into the Config a pointer points to. -/
def Config.decode (j : Json) (c : Config) : Config × Outcome :=
  match j with
  | .obj members => decodeMembers Config.tags Config.setField members c
  | .null => (c, .ok)
  | other => (c, .typeError (typeErrorText other "" "types.Config"))

/-! ### The text of a document (`json.MarshalIndent`) -/

/-- A hexadecimal digit, in lower case. -/
def hexDigit (n : Nat) : Char :=
  if n < 10 then Char.ofNat (48 + n) else Char.ofNat (87 + n)

/-- One character of a string as `encoding/json` spells it: the quote, the backslash
and the control characters are escaped, and so are `<`, `>`, `&` and the two line
separators of Unicode. -/
def escapeChar (c : Char) : List Char :=
  if c = '"' then ['\\', '"']
  else if c = '\\' then ['\\', '\\']
  else if c.toNat = 0x08 then ['\\', 'b']
  else if c.toNat = 0x0c then ['\\', 'f']
  else if c = '\n' then ['\\', 'n']
  else if c = '\r' then ['\\', 'r']
  else if c = '\t' then ['\\', 't']
  else if c.toNat < 0x20 ∨ c = '<' ∨ c = '>' ∨ c = '&' then
    ['\\', 'u', '0', '0', hexDigit (c.toNat / 16), hexDigit (c.toNat % 16)]
  else if c.toNat = 0x2028 then ['\\', 'u', '2', '0', '2', '8']
  else if c.toNat = 0x2029 then ['\\', 'u', '2', '0', '2', '9']
  else [c]

/-- A string as a JSON string literal. -/
def quoteString (s : String) : String :=
  String.mk ('"' :: (s.data.flatMap escapeChar ++ ['"']))

/-- The indentation at a depth, for the indent of two spaces that Save passes. -/
def indentOf (depth : Nat) : String :=
  String.mk (List.replicate (2 * depth) ' ')

mutual

/-- The text json.MarshalIndent(v, "", "  ") writes for a document, at a depth of
nesting: a member or an item on a line of its own, two spaces deeper than the
bracket that opens its object or array. -/
def Json.render (depth : Nat) : Json → String
  | .null => "null"
  | .bool b => if b then "true" else "false"
  | .num lit => lit
  | .str s => quoteString s
  | .arr [] => "[]"
  | .arr (x :: xs) => "[\n" ++ renderItems (depth + 1) (x :: xs) ++ "\n" ++ indentOf depth ++ "]"
  | .obj [] => "\x7b\x7d"
  | .obj (x :: xs) =>
    "\x7b\n" ++ renderMembers (depth + 1) (x :: xs) ++ "\n" ++ indentOf depth ++ "\x7d"

/-- The items of an array, one on a line. -/
def renderItems (depth : Nat) : List Json → String
  | [] => ""
  | [x] => indentOf depth ++ x.render depth
  | x :: y :: rest => indentOf depth ++ x.render depth ++ ",\n" ++ renderItems depth (y :: rest)

/-- The members of an object, one on a line. -/
def renderMembers (depth : Nat) : List (String × Json) → String
  | [] => ""
  | [(key, v)] => indentOf depth ++ quoteString key ++ ": " ++ v.render depth
  | (key, v) :: y :: rest =>
    indentOf depth ++ quoteString key ++ ": " ++ v.render depth ++ ",\n" ++
      renderMembers depth (y :: rest)

end

/-! ## The configuration file on disk (`os`) -/

/-- The bytes of a file: a JSON document; or text that is not one (the empty file
among them); or a document cut short, the first `bytes` bytes of the text
json.MarshalIndent writes for `doc`, fewer than the text has. -/
inductive FileData where
  | json (doc : Json)
  | text (raw : String)
  | cut (doc : Json) (bytes : Nat)

/-- A write that fails after the file was opened and cut to length zero: the message
of the error, and the number of bytes of the data that were written before it (`none`
when all of them were and the error is that of closing the file). -/
structure WriteFault where
  msg : String
  written : Option Nat

/-- The number of bytes of a text, in UTF-8. -/
def byteSize (s : String) : Nat :=
  (s.data.map Char.utf8Size).sum

/-- What a file holds after a write of the text of `doc` that stopped after
`written` bytes. -/
def FileData.leftOf (doc : Json) (written : Option Nat) : FileData :=
  match written with
  | none => .json doc
  | some n => if n < byteSize (doc.render 0) then .cut doc n else .json doc

/-- A file: its bytes and its permission bits. -/
structure File where
  data : FileData
  mode : Nat

/-- The file system as the manager sees it: the directories and the files by path,
each with its permission bits; `fault`, set when the file system cannot be reached
(every call then fails with that message); `denied`, set when it refuses to create a
directory or to open a file for writing; `full`, set when a file can be opened and
cut to length zero but the write of its data then fails, after some of the bytes or
in closing the file. -/
structure Disk where
  dirs : List (String × Nat)
  files : List (String × File)
  fault : Option String
  denied : Option String
  full : Option WriteFault

/-- The errors of the `os` calls used: the file does not exist, or anything else. -/
inductive PathError where
  | notExist (path : String)
  | other (msg : String)
  deriving DecidableEq, Repr

/-- The text of a path error. -/
def PathError.Error : PathError → String
  | .notExist path => "open " ++ path ++ ": no such file or directory"
  | .other msg => msg

/-- The call os.IsNotExist(err). -/
def IsNotExist : PathError → Bool
  | .notExist _ => true
  | .other _ => false

/-- The call os.ReadFile(path). -/
def Disk.ReadFile (d : Disk) (path : String) : Except PathError FileData :=
  match d.fault with
  | some msg => .error (.other msg)
  | none =>
    match d.files.lookup path with
    | none => .error (.notExist path)
    | some f => .ok f.data

/-- The call filepath.Dir(path): the path without its last element. -/
def filepathDir (path : String) : String :=
  let dir := (path.data.reverse.dropWhile (fun c => c != '/')).reverse
  if dir = [] then "."
  else if dir = ['/'] then "/"
  else String.mk dir.dropLast

/-- The call os.MkdirAll(dir, perm): nothing to do for a directory that exists; else
it is made, with its parents, with the permission bits `perm`. -/
def Disk.MkdirAll (d : Disk) (dir : String) (perm : Nat) : Option PathError × Disk :=
  match d.fault with
  | some msg => (some (.other msg), d)
  | none =>
    match d.dirs.lookup dir with
    | some _ => (none, d)
    | none =>
      match d.denied with
      | some msg => (some (.other msg), d)
      | none => (none, { d with dirs := (dir, perm) :: d.dirs })

/-- The call os.WriteFile(path, data, perm), for data that is the text of the document
`doc`: the file is opened (made with the permission bits `perm` when it does not
exist) and cut to length zero, then the data is written and the file is closed; when
that fails the file holds the bytes written before. -/
def Disk.WriteFile (d : Disk) (path : String) (doc : Json) (perm : Nat) :
    Option PathError × Disk :=
  match d.fault with
  | some msg => (some (.other msg), d)
  | none =>
    match d.dirs.lookup (filepathDir path) with
    | none => (some (.notExist path), d)
    | some _ =>
      match d.denied with
      | some msg => (some (.other msg), d)
      | none =>
        let mode := ((d.files.lookup path).map File.mode).getD perm
        let others := d.files.filter (fun e => decide (e.1 ≠ path))
        match d.full with
        | some f =>
          (some (.other f.msg),
            { d with files := (path, { data := .leftOf doc f.written, mode := mode }) :: others })
        | none => (none, { d with files := (path, { data := .json doc, mode := mode }) :: others })

/-! ## `internal/common/config/manager.go`: Load and Save -/

/-- The call json.Unmarshal(data, m.config): the Config the pointer points to after the
call, and the error. Text that is not JSON, as a document cut short is, is refused
before anything is decoded, and so is a nil pointer. -/
def Unmarshal (data : FileData) (config : Option Config) : Option Config × Option Error :=
  match data with
  | .text raw =>
    (config, some (if raw = "" then "unexpected end of JSON input"
      else "invalid character in JSON text"))
  | .cut _ _ => (config, some "unexpected end of JSON input")
  | .json doc =>
    match config with
    | none => (none, some "json: Unmarshal(nil *types.Config)")
    | some c =>
      let r := c.decode doc
      (some r.1, r.2.error)

/-- Manager.Load: the result, and the manager after the call (the Config its pointer
points to is decoded into in place). -/
def Manager.Load (m : Manager) (d : Disk) : Except Error (Option Config) × Manager :=
  match d.ReadFile m.configPath with
  | .error err =>
    if IsNotExist err then (.ok m.config, m)
    else (.error ("error reading config file: " ++ err.Error), m)
  | .ok data =>
    match Unmarshal data m.config with
    | (config, some err) =>
      (.error ("error parsing config file: " ++ err), { m with config := config })
    | (config, none) => (.ok config, { m with config := config })

/-- Manager.Save: the error, the manager and the disk after the call. -/
def Manager.Save (m : Manager) (config : Option Config) (d : Disk) :
    Option Error × Manager × Disk :=
  let configDir := filepathDir m.configPath
  match d.MkdirAll configDir 0o755 with
  | (some err, d) => (some ("error creating config directory: " ++ err.Error), m, d)
  | (none, d) =>
    match MarshalIndent config with
    | .error err => (some ("error encoding config: " ++ err), m, d)
    | .ok data =>
      match d.WriteFile m.configPath data 0o644 with
      | (some err, d) => (some ("error writing config file: " ++ err.Error), m, d)
      | (none, d) => (none, { m with config := config }, d)

/-! ## `internal/common/config/manager.go`: GetMachine and SetMachine -/

/-- How a call ended: it returned its results, or the program stopped in a panic. -/
inductive Call (α : Type) where
  | returned (result : α)
  | panicked (msg : String)

/-- The panic of Go at a nil pointer. -/
def nilDereference : String :=
  "runtime error: invalid memory address or nil pointer dereference"

/-- The first lines of GetMachine and SetMachine: Load is called when the manager
holds no Config (`m.config == nil`); the error of that Load, and the manager after. -/
def Manager.loadIfNil (m : Manager) (d : Disk) : Option Error × Manager :=
  if m.config = none then
    match m.Load d with
    | (.error err, m) => (some err, m)
    | (.ok _, m) => (none, m)
  else (none, m)

/-- Manager.GetMachine: the Machine of the Config held (the source returns a pointer to
it). -/
def Manager.GetMachine (m : Manager) (d : Disk) : Call (Except Error Machine) × Manager :=
  match m.loadIfNil d with
  | (some err, m) => (.returned (.error err), m)
  | (none, m) =>
    match m.config with
    | none => (.panicked nilDereference, m)
    | some c => (.returned (.ok c.Machine), m)

/-- Manager.SetMachine, for a `machine` pointer that is not nil: the Machine is
assigned into the Config held, then that Config is saved. -/
def Manager.SetMachine (m : Manager) (machine : Machine) (d : Disk) :
    Call (Option Error) × Manager × Disk :=
  match m.loadIfNil d with
  | (some err, m) => (.returned (some err), m, d)
  | (none, m) =>
    match m.config with
    | none => (.panicked nilDereference, m, d)
    | some c =>
      let m : Manager := { m with config := some { c with Machine := machine } }
      let r := m.Save m.config d
      (.returned r.1, r.2.1, r.2.2)

/-! ## What the members of a document go to -/

/-- A member whose key goes to a field of the struct with these tags. -/
def knownKey (tags : List String) (member : String × Json) : Bool :=
  (fieldFor tags member.1).isSome

/-- A value a `string` takes: a string, or `null`. -/
def fitsString : Json → Bool
  | .str _ => true
  | .null => true
  | _ => false

/-- A value a `bool` takes: a boolean, or `null`. -/
def fitsBool : Json → Bool
  | .bool _ => true
  | .null => true
  | _ => false

/-- A value a `time.Time` takes: a string that reads as a time, or `null`. -/
def fitsTime : Json → Bool
  | .str s => (parseTime s).isSome
  | .null => true
  | _ => false

/-- A value a `map[string]string` takes: an object of values a `string` takes, or
`null`. -/
def fitsMap : Json → Bool
  | .obj entries => entries.all (fun entry => fitsString entry.2)
  | .null => true
  | _ => false

/-- A value a slice takes: an array of values its elements take, or `null`. -/
def fitsSlice (fitsElem : Json → Bool) : Json → Bool
  | .arr items => items.all fitsElem
  | .null => true
  | _ => false

/-- The members of an object that go to a field have values the field takes. -/
def fitsMembers (tags : List String) (fitsField : String → Json → Bool)
    (members : List (String × Json)) : Bool :=
  members.all (fun member =>
    match fieldFor tags member.1 with
    | none => true
    | some tag => fitsField tag member.2)

def DotFile.fitsField (tag : String) (j : Json) : Bool :=
  if tag = "path" then fitsString j
  else if tag = "last_modified" then fitsTime j
  else if tag = "hash" then fitsString j
  else if tag = "is_symlink" then fitsBool j
  else true

/-- A value a DotFile takes: an object whose members fit, or `null`. -/
def DotFile.fits : Json → Bool
  | .obj members => fitsMembers DotFile.tags DotFile.fitsField members
  | .null => true
  | _ => false

def App.fitsField (tag : String) (j : Json) : Bool :=
  if tag = "name" then fitsString j
  else if tag = "version" then fitsString j
  else if tag = "config_files" then fitsSlice DotFile.fits j
  else if tag = "dependencies" then fitsMap j
  else true

/-- A value an App takes: an object whose members fit, or `null`. -/
def App.fits : Json → Bool
  | .obj members => fitsMembers App.tags App.fitsField members
  | .null => true
  | _ => false

def Machine.fitsField (tag : String) (j : Json) : Bool :=
  if tag = "hostname" then fitsString j
  else if tag = "last_sync" then fitsTime j
  else if tag = "dot_files" then fitsSlice DotFile.fits j
  else if tag = "apps" then fitsSlice App.fits j
  else if tag = "labels" then fitsMap j
  else if tag = "description" then fitsString j
  else true

/-- A value a Machine takes: an object whose members fit, or `null`. -/
def Machine.fits : Json → Bool
  | .obj members => fitsMembers Machine.tags Machine.fitsField members
  | .null => true
  | _ => false

def Config.fitsField (tag : String) (j : Json) : Bool :=
  if tag = "github_token" then fitsString j
  else if tag = "last_backup" then fitsTime j
  else if tag = "machine" then Machine.fits j
  else true

/-- A document a Config takes without error: an object in which the value under each
key that goes to a field has the type of the field, at every level (the value under a
key that goes to no field may be any), or `null`. -/
def Config.fits : Json → Bool
  | .obj members => fitsMembers Config.tags Config.fitsField members
  | .null => true
  | _ => false

/-! ### A document without its unknown keys -/

/-- The members of an object that go to a field, each with its value without the
unknown keys. -/
def keepKnownMembers (tags : List String) (keepField : String → Json → Json)
    (members : List (String × Json)) : List (String × Json) :=
  (members.filter (knownKey tags)).map
    (fun member => (member.1, keepField ((fieldFor tags member.1).getD "") member.2))

/-- The items of an array, each without its unknown keys. -/
def keepKnownItems (keep : Json → Json) : Json → Json
  | .arr items => .arr (items.map keep)
  | j => j

def DotFile.keepKnown : Json → Json
  | .obj members => .obj (keepKnownMembers DotFile.tags (fun _ j => j) members)
  | j => j

def App.keepKnownField (tag : String) (j : Json) : Json :=
  if tag = "config_files" then keepKnownItems DotFile.keepKnown j else j

def App.keepKnown : Json → Json
  | .obj members => .obj (keepKnownMembers App.tags App.keepKnownField members)
  | j => j

def Machine.keepKnownField (tag : String) (j : Json) : Json :=
  if tag = "dot_files" then keepKnownItems DotFile.keepKnown j
  else if tag = "apps" then keepKnownItems App.keepKnown j
  else j

def Machine.keepKnown : Json → Json
  | .obj members => .obj (keepKnownMembers Machine.tags Machine.keepKnownField members)
  | j => j

def Config.keepKnownField (tag : String) (j : Json) : Json :=
  if tag = "machine" then Machine.keepKnown j else j

/-- A document of a Config without the members, at any level, whose key goes to no
field. -/
def Config.keepKnown : Json → Json
  | .obj members => .obj (keepKnownMembers Config.tags Config.keepKnownField members)
  | j => j

/-! ## What a round trip through the file keeps -/

/-- A time as the file keeps it: the stamp, without the monotonic clock reading. -/
def Time.persisted (t : Time) : Time :=
  { t with mono := none }

/-- A DotFile as the file keeps it. -/
def DotFile.persisted (f : DotFile) : DotFile :=
  { f with LastModified := f.LastModified.persisted }

/-- Two maps that are the same map: both nil or neither, and the same value under
every key. -/
def sameMap (a b : Option (List (String × String))) : Prop :=
  a.isSome = b.isSome ∧ ∀ key, (a.getD []).lookup key = (b.getD []).lookup key

/-- An App `a` read back from what was written for `b`: the same name, version and
dependencies, the same config files up to the clock readings. -/
def App.same (a b : App) : Prop :=
  a.Name = b.Name ∧ a.Version = b.Version ∧
  a.ConfigFiles = b.ConfigFiles.map (List.map DotFile.persisted) ∧
  sameMap a.Dependencies b.Dependencies

/-- Two app sequences with the same apps in the same order. -/
def sameApps : Option (List App) → Option (List App) → Prop
  | none, none => True
  | some as, some bs => List.Forall₂ App.same as bs
  | _, _ => False

/-- A Machine `a` read back from what was written for `b`: the same hostname,
description and labels map, the same dot_files in the same order (up to the clock
readings), the same apps in the same order, and the same last_sync instant. -/
def Machine.same (a b : Machine) : Prop :=
  a.Hostname = b.Hostname ∧ a.Description = b.Description ∧ sameMap a.Labels b.Labels ∧
  a.DotFiles = b.DotFiles.map (List.map DotFile.persisted) ∧ sameApps a.Apps b.Apps ∧
  a.LastSync.stamp = b.LastSync.stamp

theorem lookup_filter_ne_self {α β : Type} [BEq α] [LawfulBEq α] [DecidableEq α] (key : α)
    (l : List (α × β)) :
    (l.filter (fun e => decide (e.1 ≠ key))).lookup key = none := by
  induction l with
  | nil => rfl
  | cons hd tl ih =>
    obtain ⟨a, b⟩ := hd
    by_cases h : a = key
    · rw [List.filter_cons_of_neg (by simp [h])]
      exact ih
    · rw [List.filter_cons_of_pos (by simp [h])]
      have h' : (key == a) = false := by
        rw [beq_eq_false_iff_ne]
        exact fun e => h e.symm
      rw [List.lookup, h']
      exact ih

theorem lookup_cons_self {α β : Type} [BEq α] [LawfulBEq α] (key : α) (v : β)
    (l : List (α × β)) :
    ((key, v) :: l).lookup key = some v := by
  simp [List.lookup]

theorem lookup_filter_ne_of_ne {α β : Type} [BEq α] [LawfulBEq α] [DecidableEq α] (key k : α)
    (h : k ≠ key) (l : List (α × β)) :
    (l.filter (fun e => decide (e.1 ≠ key))).lookup k = l.lookup k := by
  induction l with
  | nil => rfl
  | cons hd tl ih =>
    obtain ⟨a, b⟩ := hd
    by_cases ha : a = key
    · rw [List.filter_cons_of_neg (by simp [ha])]
      have hk : (k == a) = false := by
        rw [beq_eq_false_iff_ne, ha]; exact h
      rw [List.lookup, hk]
      exact ih
    · rw [List.filter_cons_of_pos (by simp [ha])]
      by_cases hk : k = a
      · subst hk
        simp [List.lookup]
      · have hk' : (k == a) = false := by rw [beq_eq_false_iff_ne]; exact hk
        rw [List.lookup, List.lookup, hk']
        exact ih

theorem lookup_setEntry (key value k : String) (m : List (String × String)) :
    (setEntry key value m).lookup k = if k = key then some value else m.lookup k := by
  unfold setEntry
  by_cases h : k = key
  · subst h
    simp [List.lookup]
  · have hk : (k == key) = false := by rw [beq_eq_false_iff_ne]; exact h
    rw [List.lookup, hk, if_neg h]
    exact lookup_filter_ne_of_ne key k h m

theorem deleteToken_of_available (k : Keyring) (havail : k.fault = none) :
    KeyringStorage.DeleteToken k =
      (none, match k.entry serviceName tokenKey with
        | none => k
        | some _ => k.without serviceName tokenKey) := by
  unfold KeyringStorage.DeleteToken Keyring.Delete
  rw [havail]
  cases h : k.entry serviceName tokenKey <;> simp

theorem deleteToken_fault (k : Keyring) (havail : k.fault = none) :
    (KeyringStorage.DeleteToken k).2.fault = none := by
  rw [deleteToken_of_available k havail]
  cases h : k.entry serviceName tokenKey <;> simpa using havail

theorem deleteToken_entry (k : Keyring) (havail : k.fault = none) :
    (KeyringStorage.DeleteToken k).2.entry serviceName tokenKey = none := by
  rw [deleteToken_of_available k havail]
  cases h : k.entry serviceName tokenKey
  · simpa using h
  · simp only [Keyring.entry, Keyring.without]
    exact lookup_filter_ne_self (serviceName, tokenKey) k.secrets

theorem getToken_of_entry_none (k : Keyring) (havail : k.fault = none)
    (h : k.entry serviceName tokenKey = none) : KeyringStorage.GetToken k = .ok "" := by
  simp [KeyringStorage.GetToken, Keyring.Get, havail, h]

theorem getToken_of_entry_some (k : Keyring) (havail : k.fault = none) (t : String)
    (h : k.entry serviceName tokenKey = some t) : KeyringStorage.GetToken k = .ok t := by
  simp [KeyringStorage.GetToken, Keyring.Get, havail, h]

theorem storeToken_ok (k : Keyring) (t : String) (h : (KeyringStorage.StoreToken t k).1 = none) :
    k.fault = none ∧
    (KeyringStorage.StoreToken t k).2 = k.holding serviceName tokenKey t := by
  unfold KeyringStorage.StoreToken Keyring.Set at *
  cases hf : k.fault with
  | some msg => simp [hf] at h
  | none =>
    by_cases hl : k.limit.any (fun n => decide (n < t.utf8ByteSize)) = true
    · simp [hf, hl] at h
    · simp [hl]

theorem getToken_after_setToken (m : Manager) (k : Keyring) (t : String) (hne : t ≠ "")
    (hset : (m.SetToken t k).1 = none) : m.GetToken (m.SetToken t k).2 = .ok t := by
  have hstore : m.SetToken t k = KeyringStorage.StoreToken t k := by
    simp [Manager.SetToken, hne]
  rw [hstore] at hset ⊢
  obtain ⟨havail, hk⟩ := storeToken_ok k t hset
  rw [hk]
  have hent : (k.holding serviceName tokenKey t).entry serviceName tokenKey = some t :=
    lookup_cons_self _ _ _
  exact getToken_of_entry_some (k.holding serviceName tokenKey t) havail t hent

theorem setToken_failed_keeps (m : Manager) (t : String) (k : Keyring)
    (h : (m.SetToken t k).1 ≠ none) : (m.SetToken t k).2 = k := by
  unfold Manager.SetToken KeyringStorage.DeleteToken KeyringStorage.StoreToken
    Keyring.Delete Keyring.Set at *
  by_cases ht : t = ""
  · simp only [ht, if_true] at h ⊢
    cases hf : k.fault with
    | some msg => simp
    | none =>
      cases he : k.entry serviceName tokenKey with
      | none => simp
      | some v => simp [hf, he] at h
  · simp only [ht, if_false] at h ⊢
    cases hf : k.fault with
    | some msg => simp
    | none =>
      by_cases hl : k.limit.any (fun n => decide (n < t.utf8ByteSize)) = true
      · simp [hl]
      · simp [hf, hl] at h

theorem setToken_result_congr (m : Manager) (t : String) (k₁ k₂ : Keyring) (ht : t ≠ "")
    (hf : k₁.fault = k₂.fault) (hl : k₁.limit = k₂.limit) :
    (m.SetToken t k₁).1 = (m.SetToken t k₂).1 := by
  unfold Manager.SetToken KeyringStorage.StoreToken Keyring.Set
  simp only [ht, if_false, ← hf, ← hl]
  cases k₁.fault with
  | some msg => rfl
  | none =>
    by_cases hlim : k₁.limit.any (fun n => decide (n < t.utf8ByteSize)) = true
    · simp [hlim]
    · simp [hlim]

/-- What runLogout does when the configuration directory resolves and the keyring
is available. -/
theorem runLogout_of_available (w : World) (dir : String) (hdir : w.GetConfigDir = .ok dir)
    (havail : w.keyring.fault = none) :
    (runLogout w).1 = none ∧
    (runLogout w).2.keyring = (KeyringStorage.DeleteToken w.keyring).2 ∧
    (runLogout w).2.GetConfigDir = w.GetConfigDir := by
  have hd := deleteToken_of_available w.keyring havail
  simp only [runLogout, World.emit, hdir, NewManager, Manager.SetToken, if_true]
  rw [hd]
  simp [hdir]

/-! ## Lemmas on the login workflow -/

theorem clientFor_congr (tc : Option GitHubClient) (w₁ w₂ : World) (t : String)
    (h : w₁.NewClient = w₂.NewClient) : clientFor tc w₁ t = clientFor tc w₂ t := by
  cases tc with
  | some c => rfl
  | none => simp [clientFor, h]

theorem validateAndShowUser_eq (token : String) (tc : Option GitHubClient) (w : World) :
    validateAndShowUser token tc w =
      match (clientFor tc w token).ValidateToken token with
      | some _ =>
        (some "Error: Invalid GitHub token", { w with trace := w.trace ++ [.validateToken token] })
      | none =>
        match (clientFor tc w token).GetUser with
        | .error _ =>
          (some "Error: Could not get user information",
            { w with trace := w.trace ++ [.validateToken token, .getUser] })
        | .ok u =>
          (none, { w with trace := w.trace ++ [.validateToken token, .getUser,
            .stdout ("Successfully logged in as " ++ u ++ "\n")] }) := by
  unfold validateAndShowUser
  cases hv : (clientFor tc w token).ValidateToken token with
  | some e => simp [World.emit, hv]
  | none =>
    cases hu : (clientFor tc w token).GetUser with
    | error e => simp [World.emit, hv, hu]
    | ok u => simp [World.emit, hv, hu]

theorem acquireToken_eq (w : World) :
    acquireToken w =
      if w.GITHUB_TOKEN.getD "" = "" then
        (TrimSpace ((Scanln w.stdin).1.getD ""),
          { w with stdin := (Scanln w.stdin).2,
                   trace := w.trace ++ [.getenv "GITHUB_TOKEN",
                     .stdout "Enter your GitHub Personal Access Token: ", .scanln] })
      else (w.GITHUB_TOKEN.getD "", { w with trace := w.trace ++ [.getenv "GITHUB_TOKEN"] }) := by
  unfold acquireToken
  by_cases h : w.GITHUB_TOKEN.getD "" = ""
  · simp [World.emit, h]
  · simp [World.emit, h]

theorem acquireToken_token_congr (w₁ w₂ : World) (hG : w₁.GITHUB_TOKEN = w₂.GITHUB_TOKEN)
    (hS : w₁.stdin = w₂.stdin) : (acquireToken w₁).1 = (acquireToken w₂).1 := by
  rw [acquireToken_eq, acquireToken_eq, hG, hS]
  by_cases h : w₂.GITHUB_TOKEN.getD "" = "" <;> simp [h]

theorem acquireToken_keeps (w : World) :
    (acquireToken w).2.keyring = w.keyring ∧ (acquireToken w).2.NewClient = w.NewClient ∧
    ∃ acq, (acquireToken w).2.trace = w.trace ++ (.getenv "GITHUB_TOKEN" :: acq) ∧
      ∀ e ∈ acq, e.isClientCall = false ∧ e.isSetToken = false := by
  rw [acquireToken_eq]
  by_cases h : w.GITHUB_TOKEN.getD "" = ""
  · rw [if_pos h]
    exact ⟨rfl, rfl, _, rfl, by simp [Event.isClientCall, Event.isSetToken]⟩
  · rw [if_neg h]
    exact ⟨rfl, rfl, [], rfl, by simp⟩

theorem loginWithToken_eq (m : Manager) (token : String) (tc : Option GitHubClient) (w : World) :
    loginWithToken m token tc w =
      if token = "" then (some "Error: GitHub token is required", w)
      else
        match (clientFor tc w token).ValidateToken token with
        | some _ =>
          (some "Error: Invalid GitHub token",
            { w with trace := w.trace ++ [.validateToken token] })
        | none =>
          match (clientFor tc w token).GetUser with
          | .error _ =>
            (some "Error: Could not get user information",
              { w with trace := w.trace ++ [.validateToken token, .getUser] })
          | .ok u =>
            match (m.SetToken token w.keyring).1 with
            | some _ =>
              (some "Error: Could not store token securely",
                { w with keyring := (m.SetToken token w.keyring).2,
                         trace := w.trace ++ [.validateToken token, .getUser,
                           .stdout ("Successfully logged in as " ++ u ++ "\n"),
                           .setToken token] })
            | none =>
              (none,
                { w with keyring := (m.SetToken token w.keyring).2,
                         trace := w.trace ++ [.validateToken token, .getUser,
                           .stdout ("Successfully logged in as " ++ u ++ "\n"),
                           .setToken token] }) := by
  unfold loginWithToken
  rw [validateAndShowUser_eq]
  by_cases ht : token = ""
  · simp [ht]
  · simp only [ht, if_false]
    cases hv : (clientFor tc w token).ValidateToken token with
    | some e => simp
    | none =>
      cases hu : (clientFor tc w token).GetUser with
      | error e => simp
      | ok u =>
        simp only [World.emit]
        cases hs : m.SetToken token w.keyring with
        | mk err k => cases err <;> simp

/-- The run of runLogin up to the login with a new token, for a stored token the client
does not accept with a user name, or none. -/
theorem runLogin_eq (tc : Option GitHubClient) (w : World) :
    runLogin tc w =
      match NewManager w.GetConfigDir with
      | .error _ => (some "Error: Could not initialize configuration",
          { w with trace := w.trace ++ [.getConfigDir] })
      | .ok m =>
        match m.GetToken w.keyring with
        | .error _ => (some "Error: Could not check existing login state",
            { w with trace := w.trace ++ [.getConfigDir, .getToken] })
        | .ok existing =>
          if existing = "" then
            loginWithNewToken m tc { w with trace := w.trace ++ [.getConfigDir, .getToken] }
          else
            match (clientFor tc w existing).ValidateToken existing with
            | some _ =>
              loginWithNewToken m tc { w with trace :=
                w.trace ++ [.getConfigDir, .getToken, .validateToken existing] }
            | none =>
              match (clientFor tc w existing).GetUser with
              | .error _ =>
                loginWithNewToken m tc { w with trace :=
                  w.trace ++ [.getConfigDir, .getToken, .validateToken existing, .getUser] }
              | .ok u =>
                (some "Already logged in. Use 'logout' command to log out first",
                  { w with trace := w.trace ++ [.getConfigDir, .getToken,
                    .validateToken existing, .getUser,
                    .stdout ("Successfully logged in as " ++ u ++ "\n")] }) := by
  unfold runLogin
  simp only [World.emit]
  cases hm : NewManager w.GetConfigDir with
  | error e => rfl
  | ok m =>
    simp only []
    cases hg : m.GetToken w.keyring with
    | error e => simp
    | ok existing =>
      simp only []
      by_cases hex : existing = ""
      · simp [hex]
      · simp only [ne_eq, hex, not_false_eq_true, if_true, if_false, validateAndShowUser_eq]
        have hc : ∀ tr, clientFor tc { w with trace := tr } existing = clientFor tc w existing := by
          intro tr; cases tc <;> rfl
        simp only [hc]
        cases hv : (clientFor tc w existing).ValidateToken existing with
        | some e => simp
        | none =>
          cases hu : (clientFor tc w existing).GetUser with
          | error e => simp
          | ok u => simp

theorem loginWithToken_ne_already (m : Manager) (token : String) (tc : Option GitHubClient)
    (w : World) :
    (loginWithToken m token tc w).1 ≠
      some "Already logged in. Use 'logout' command to log out first" := by
  rw [loginWithToken_eq]
  by_cases ht : token = ""
  · simp only [ht, if_true]; decide
  · simp only [ht, if_false]
    cases (clientFor tc w token).ValidateToken token with
    | some e => simp only []; decide
    | none =>
      cases (clientFor tc w token).GetUser with
      | error e => simp only []; decide
      | ok u =>
        cases (m.SetToken token w.keyring).1 with
        | some e => simp only []; decide
        | none => simp

theorem loginWithToken_result_congr (m : Manager) (token : String) (tc : Option GitHubClient)
    (w₁ w₂ : World) (hN : w₁.NewClient = w₂.NewClient)
    (hf : w₁.keyring.fault = w₂.keyring.fault) (hl : w₁.keyring.limit = w₂.keyring.limit) :
    (loginWithToken m token tc w₁).1 = (loginWithToken m token tc w₂).1 := by
  rw [loginWithToken_eq, loginWithToken_eq, clientFor_congr tc w₁ w₂ token hN]
  by_cases ht : token = ""
  · simp [ht]
  · simp only [ht, if_false]
    rw [setToken_result_congr m token w₁.keyring w₂.keyring ht hf hl]
    cases (clientFor tc w₂ token).ValidateToken token with
    | some e => rfl
    | none =>
      cases (clientFor tc w₂ token).GetUser with
      | error e => rfl
      | ok u =>
        cases (m.SetToken token w₂.keyring).1 with
        | some e => rfl
        | none => rfl

theorem loginWithToken_store (m : Manager) (token : String) (tc : Option GitHubClient)
    (w : World) :
    ((loginWithToken m token tc w).1 = none →
      token ≠ "" ∧ (m.SetToken token w.keyring).1 = none ∧
      (loginWithToken m token tc w).2.keyring = (m.SetToken token w.keyring).2) ∧
    ((loginWithToken m token tc w).1 ≠ none →
      (loginWithToken m token tc w).2.keyring = w.keyring) := by
  rw [loginWithToken_eq]
  by_cases ht : token = ""
  · simp [ht]
  · simp only [ht, if_false]
    cases (clientFor tc w token).ValidateToken token with
    | some e => simp
    | none =>
      cases (clientFor tc w token).GetUser with
      | error e => simp
      | ok u =>
        cases hs : (m.SetToken token w.keyring).1 with
        | some e =>
          simp only []
          refine ⟨by simp, fun _ => ?_⟩
          exact setToken_failed_keeps m token w.keyring (by rw [hs]; simp)
        | none => simp [ht]

/-- The events of a login with a given token: what follows the ValidateToken call on
the token, when there is one. -/
theorem loginWithToken_trace (m : Manager) (token : String) (tc : Option GitHubClient)
    (w : World) :
    ∃ post, (loginWithToken m token tc w).2.trace = w.trace ++ post ∧
      (∀ e ∈ post, e ≠ .getenv "GITHUB_TOKEN") ∧
      (token = "" → post = []) ∧
      (token ≠ "" → ∃ rest, post = .validateToken token :: rest ∧
        ((clientFor tc w token).ValidateToken token ≠ none →
          rest = [] ∧ (loginWithToken m token tc w).1 = some "Error: Invalid GitHub token")) := by
  rw [loginWithToken_eq]
  by_cases ht : token = ""
  · exact ⟨[], by simp [ht]⟩
  · simp only [ht, if_false]
    cases hv : (clientFor tc w token).ValidateToken token with
    | some e => exact ⟨[.validateToken token], by simp [ht]⟩
    | none =>
      cases (clientFor tc w token).GetUser with
      | error e => exact ⟨[.validateToken token, .getUser], by simp [ht]⟩
      | ok u =>
        cases (m.SetToken token w.keyring).1 with
        | some e => exact ⟨_, rfl, by simp [ht]⟩
        | none => exact ⟨_, rfl, by simp [ht]⟩

theorem loginWithNewToken_rejected (m : Manager) (tc : Option GitHubClient) (w : World) :
    ∃ post, (loginWithNewToken m tc w).2.trace = w.trace ++ post ∧
      ∀ t, candidateValidated post = some t → (clientFor tc w t).ValidateToken t ≠ none →
        (loginWithNewToken m tc w).1 = some "Error: Invalid GitHub token" ∧
        (loginWithNewToken m tc w).2.keyring = w.keyring ∧
        (∀ e ∈ post, e.isSetToken = false) := by
  unfold loginWithNewToken
  rw [acquireToken_eq]
  by_cases henv : w.GITHUB_TOKEN.getD "" = ""
  · simp only [henv, if_true]
    generalize TrimSpace ((Scanln w.stdin).1.getD "") = tok
    generalize hw₁ : ({ w with
      stdin := (Scanln w.stdin).2,
      trace := w.trace ++ [.getenv "GITHUB_TOKEN",
        .stdout "Enter your GitHub Personal Access Token: ", .scanln] } : World) = w₁
    have hk : w₁.keyring = w.keyring := by rw [← hw₁]
    have hc : ∀ t, clientFor tc w₁ t = clientFor tc w t := by
      intro t; rw [← hw₁]; cases tc <;> rfl
    have htr : w₁.trace = w.trace ++ [.getenv "GITHUB_TOKEN",
        .stdout "Enter your GitHub Personal Access Token: ", .scanln] := by rw [← hw₁]
    obtain ⟨post, hpost, _, hempty, hne⟩ := loginWithToken_trace m tok tc w₁
    have hstore := (loginWithToken_store m tok tc w₁).2
    refine ⟨[.getenv "GITHUB_TOKEN", .stdout "Enter your GitHub Personal Access Token: ",
      .scanln] ++ post, by rw [hpost, htr]; simp, ?_⟩
    intro t hcand hrej
    by_cases ht : tok = ""
    · rw [hempty ht] at hcand
      simp [candidateValidated, firstValidated] at hcand
    · obtain ⟨rest, hrest, hinv⟩ := hne ht
      rw [hrest] at hcand
      simp only [List.cons_append, List.nil_append, candidateValidated, firstValidated,
        Option.some.injEq] at hcand
      subst hcand
      obtain ⟨hnil, hres⟩ := hinv (by rw [hc]; exact hrej)
      refine ⟨hres, ?_, ?_⟩
      · rw [hstore (by rw [hres]; simp), hk]
      · rw [hrest, hnil]
        simp [Event.isSetToken]
  · simp only [henv, if_false]
    generalize w.GITHUB_TOKEN.getD "" = tok
    generalize hw₁ : ({ w with trace := w.trace ++ [.getenv "GITHUB_TOKEN"] } : World) = w₁
    have hk : w₁.keyring = w.keyring := by rw [← hw₁]
    have hc : ∀ t, clientFor tc w₁ t = clientFor tc w t := by
      intro t; rw [← hw₁]; cases tc <;> rfl
    have htr : w₁.trace = w.trace ++ [.getenv "GITHUB_TOKEN"] := by rw [← hw₁]
    obtain ⟨post, hpost, _, hempty, hne⟩ := loginWithToken_trace m tok tc w₁
    have hstore := (loginWithToken_store m tok tc w₁).2
    refine ⟨[.getenv "GITHUB_TOKEN"] ++ post, by rw [hpost, htr]; simp, ?_⟩
    intro t hcand hrej
    by_cases ht : tok = ""
    · rw [hempty ht] at hcand
      simp [candidateValidated, firstValidated] at hcand
    · obtain ⟨rest, hrest, hinv⟩ := hne ht
      rw [hrest] at hcand
      simp only [List.cons_append, List.nil_append, candidateValidated, firstValidated,
        Option.some.injEq] at hcand
      subst hcand
      obtain ⟨hnil, hres⟩ := hinv (by rw [hc]; exact hrej)
      refine ⟨hres, ?_, ?_⟩
      · rw [hstore (by rw [hres]; simp), hk]
      · rw [hrest, hnil]
        simp [Event.isSetToken]

theorem loginWithNewToken_result_congr (m : Manager) (tc : Option GitHubClient) (w₁ w₂ : World)
    (hG : w₁.GITHUB_TOKEN = w₂.GITHUB_TOKEN) (hS : w₁.stdin = w₂.stdin)
    (hN : w₁.NewClient = w₂.NewClient) (hf : w₁.keyring.fault = w₂.keyring.fault)
    (hl : w₁.keyring.limit = w₂.keyring.limit) :
    (loginWithNewToken m tc w₁).1 = (loginWithNewToken m tc w₂).1 := by
  unfold loginWithNewToken
  simp only []
  rw [acquireToken_token_congr w₁ w₂ hG hS]
  apply loginWithToken_result_congr
  · rw [(acquireToken_keeps w₁).2.1, (acquireToken_keeps w₂).2.1, hN]
  · rw [(acquireToken_keeps w₁).1, (acquireToken_keeps w₂).1, hf]
  · rw [(acquireToken_keeps w₁).1, (acquireToken_keeps w₂).1, hl]

/-- What a login with a new token leaves, in the terms of the candidate token. -/
theorem loginWithNewToken_outcome (m : Manager) (tc : Option GitHubClient) (w : World) :
    (loginWithNewToken m tc w).1 ≠
      some "Already logged in. Use 'logout' command to log out first" ∧
    (∃ post, (loginWithNewToken m tc w).2.trace = w.trace ++ (.getenv "GITHUB_TOKEN" :: post)) ∧
    ((loginWithNewToken m tc w).1 = none →
      m.GetToken (loginWithNewToken m tc w).2.keyring = .ok (acquireToken w).1) ∧
    ((loginWithNewToken m tc w).1 ≠ none → (loginWithNewToken m tc w).2.keyring = w.keyring) := by
  unfold loginWithNewToken
  simp only []
  obtain ⟨hk, _, acq, hacq, _⟩ := acquireToken_keeps w
  obtain ⟨post, hpost, _⟩ := loginWithToken_trace m (acquireToken w).1 tc (acquireToken w).2
  obtain ⟨hok, hfail⟩ := loginWithToken_store m (acquireToken w).1 tc (acquireToken w).2
  refine ⟨loginWithToken_ne_already _ _ _ _, ⟨acq ++ post, by rw [hpost, hacq]; simp⟩, ?_, ?_⟩
  · intro h
    obtain ⟨hne, hset, hkeys⟩ := hok h
    rw [hkeys]
    exact getToken_after_setToken m _ _ hne hset
  · intro h
    rw [hfail h, hk]

theorem Scanln_blank_line (l : List Char)
    (h : ∀ c ∈ l.takeWhile (fun c => c != '\n'), isSpace c = true) : (Scanln l).1 = none := by
  induction l with
  | nil => rfl
  | cons c cs ih =>
    by_cases hc : c = '\n'
    · simp [Scanln, hc]
    · have hne : (c != '\n') = true := by simpa using hc
      have htw : (c :: cs).takeWhile (fun c => c != '\n') =
          c :: cs.takeWhile (fun c => c != '\n') := by
        simp [List.takeWhile, hne]
      rw [htw] at h
      have hsp : isSpace c = true := h c (List.mem_cons_self _ _)
      have hrest := ih (fun x hx => h x (List.mem_cons_of_mem _ hx))
      simp only [Scanln, hc, hsp, if_true, if_false]
      exact hrest

theorem all_space_of_trimSpace_empty (cs : List Char) (h : TrimSpace (String.mk cs) = "") :
    ∀ c ∈ cs, isSpace c = true := by
  have h' : ((cs.dropWhile isSpace).reverse.dropWhile isSpace).reverse = [] := by
    have := congrArg String.data h
    simpa [TrimSpace] using this
  rw [List.reverse_eq_nil_iff, List.dropWhile_eq_nil_iff] at h'
  cases hd : cs.dropWhile isSpace with
  | nil => exact List.dropWhile_eq_nil_iff.mp hd
  | cons x xs =>
    have hx : isSpace x = true := h' x (by rw [hd]; simp)
    have hhead := List.head_dropWhile_not isSpace cs (by rw [hd]; simp)
    simp only [hd, List.head_cons] at hhead
    rw [hx] at hhead
    exact absurd hhead (by simp)

theorem trimSpace_empty : TrimSpace "" = "" := by decide

/-! ## Lemmas on the round trip through JSON -/

theorem writeFile_ok (d : Disk) (path : String) (doc : Json) (perm : Nat)
    (h : (d.WriteFile path doc perm).1 = none) :
    (d.WriteFile path doc perm).2.ReadFile path = .ok (.json doc) := by
  unfold Disk.WriteFile at *
  cases hf : d.fault with
  | some msg => simp [hf] at h
  | none =>
    simp only [hf] at h ⊢
    cases hl : d.dirs.lookup (filepathDir path) with
    | none => simp [hl] at h
    | some mode =>
      simp only [hl] at h ⊢
      cases hd : d.denied with
      | some msg => simp [hd] at h
      | none =>
        simp only [hd] at h ⊢
        cases hfull : d.full with
        | some msg => simp [hfull] at h
        | none => simp [Disk.ReadFile, hf, List.lookup]

/-- What a Save that returns nil leaves: the manager holds the Config saved, and the
file holds the document the Config encodes to. -/
theorem save_ok (m : Manager) (c : Config) (d : Disk) (h : (m.Save (some c) d).1 = none) :
    ∃ doc, c.encode = .ok doc ∧ (m.Save (some c) d).2.1 = { m with config := some c } ∧
      (m.Save (some c) d).2.2.ReadFile m.configPath = .ok (.json doc) := by
  unfold Manager.Save at *
  simp only [MarshalIndent] at *
  cases hmk : d.MkdirAll (filepathDir m.configPath) 0o755 with
  | mk err d₁ =>
    rw [hmk] at h
    cases err with
    | some e => simp at h
    | none =>
      simp only [] at h ⊢
      cases henc : c.encode with
      | error e => rw [henc] at h; simp at h
      | ok doc =>
        rw [henc] at h
        simp only [] at h ⊢
        have hw := writeFile_ok d₁ m.configPath doc 0o644
        cases hwr : d₁.WriteFile m.configPath doc 0o644 with
        | mk werr d₂ =>
          rw [hwr] at h hw
          cases werr with
          | some e => simp at h
          | none => exact ⟨doc, rfl, rfl, hw rfl⟩

theorem load_missing (m : Manager) (d : Disk) (p : String)
    (h : d.ReadFile m.configPath = .error (.notExist p)) : m.Load d = (.ok m.config, m) := by
  simp [Manager.Load, h, IsNotExist]

theorem load_text (m : Manager) (d : Disk) (raw : String)
    (h : d.ReadFile m.configPath = .ok (.text raw)) :
    m.Load d =
      (.error ("error parsing config file: " ++
        (if raw = "" then "unexpected end of JSON input" else "invalid character in JSON text")),
        m) := by
  simp [Manager.Load, h, Unmarshal]

theorem load_cut (m : Manager) (d : Disk) (doc : Json) (bytes : Nat)
    (h : d.ReadFile m.configPath = .ok (.cut doc bytes)) :
    m.Load d = (.error "error parsing config file: unexpected end of JSON input", m) := by
  simp [Manager.Load, h, Unmarshal]

theorem save_failed_keeps (m : Manager) (config : Option Config) (d : Disk)
    (h : (m.Save config d).1 ≠ none) : (m.Save config d).2.1 = m := by
  unfold Manager.Save at *
  simp only [] at h ⊢
  cases hmk : d.MkdirAll (filepathDir m.configPath) 0o755 with
  | mk err d₁ =>
    rw [hmk] at h
    cases err with
    | some e => rfl
    | none =>
      simp only [] at h ⊢
      cases henc : MarshalIndent config with
      | error e => rfl
      | ok doc =>
        rw [henc] at h
        simp only [] at h ⊢
        cases hwr : d₁.WriteFile m.configPath doc 0o644 with
        | mk werr d₂ =>
          rw [hwr] at h
          cases werr with
          | some e => rfl
          | none => simp at h

theorem save_eq (m : Manager) (config : Option Config) (d : Disk) :
    m.Save config d =
      match d.MkdirAll (filepathDir m.configPath) 0o755 with
      | (some err, d₁) => (some ("error creating config directory: " ++ err.Error), m, d₁)
      | (none, d₁) =>
        match MarshalIndent config with
        | .error err => (some ("error encoding config: " ++ err), m, d₁)
        | .ok data =>
          match d₁.WriteFile m.configPath data 0o644 with
          | (some err, d₂) => (some ("error writing config file: " ++ err.Error), m, d₂)
          | (none, d₂) => (none, { m with config := config }, d₂) := by
  rfl

theorem mkdirAll_files (d : Disk) (dir : String) (perm : Nat) :
    (d.MkdirAll dir perm).2.files = d.files ∧ (d.MkdirAll dir perm).2.full = d.full ∧
    ((d.MkdirAll dir perm).1 ≠ none → (d.MkdirAll dir perm).2 = d) := by
  unfold Disk.MkdirAll
  cases d.fault with
  | some msg => simp
  | none =>
    cases d.dirs.lookup dir with
    | some mode => simp
    | none =>
      cases d.denied with
      | some msg => simp
      | none => simp

theorem mkdirAll_mode (d : Disk) (dir : String) (perm : Nat) (h : (d.MkdirAll dir perm).1 = none)
    (hmissing : d.dirs.lookup dir = none) : (d.MkdirAll dir perm).2.dirs.lookup dir = some perm := by
  unfold Disk.MkdirAll at *
  cases hf : d.fault with
  | some msg => simp [hf] at h
  | none =>
    simp only [hf, hmissing] at h ⊢
    cases hd : d.denied with
    | some msg => simp [hd] at h
    | none => simp [List.lookup]

theorem writeFile_failed (d : Disk) (path : String) (doc : Json) (perm : Nat)
    (h : (d.WriteFile path doc perm).1 ≠ none) :
    (d.full = none → (d.WriteFile path doc perm).2 = d) ∧
    ((d.WriteFile path doc perm).2 = d ∨
      ∃ f, d.full = some f ∧
        (d.WriteFile path doc perm).2.ReadFile path = .ok (.leftOf doc f.written) ∧
        ∀ other, other ≠ path →
          (d.WriteFile path doc perm).2.files.lookup other = d.files.lookup other) := by
  unfold Disk.WriteFile at *
  cases hf : d.fault with
  | some msg => simp
  | none =>
    simp only [hf] at h ⊢
    cases hl : d.dirs.lookup (filepathDir path) with
    | none => simp
    | some mode =>
      simp only [hl] at h ⊢
      cases hd : d.denied with
      | some msg => simp
      | none =>
        simp only [hd] at h ⊢
        cases hfull : d.full with
        | none => simp [hfull] at h
        | some f =>
          refine ⟨by simp, Or.inr ⟨f, rfl, by simp [Disk.ReadFile, hf, List.lookup], ?_⟩⟩
          intro other hne
          have hb : (other == path) = false := by simpa using hne
          simp only [List.lookup, hb]
          exact lookup_filter_ne_of_ne path other hne _

theorem writeFile_mode (d : Disk) (path : String) (doc : Json) (perm : Nat)
    (h : (d.WriteFile path doc perm).1 = none) :
    (d.WriteFile path doc perm).2.dirs = d.dirs ∧
    ((d.WriteFile path doc perm).2.files.lookup path).map File.mode =
      some (((d.files.lookup path).map File.mode).getD perm) := by
  unfold Disk.WriteFile at *
  cases hf : d.fault with
  | some msg => simp [hf] at h
  | none =>
    simp only [hf] at h ⊢
    cases hl : d.dirs.lookup (filepathDir path) with
    | none => simp [hl] at h
    | some mode =>
      simp only [hl] at h ⊢
      cases hd : d.denied with
      | some msg => simp [hd] at h
      | none =>
        simp only [hd] at h ⊢
        cases hfull : d.full with
        | some msg => simp [hfull] at h
        | none => simp [List.lookup]

/-- A run whose candidate token the client rejects returns the invalid-token error and
writes nothing to the credential store. -/
theorem runLogin_rejected_candidate (testClient : Option GitHubClient) (w : World)
    (t : String)
    (hcand : candidateValidated ((runLogin testClient w).2.eventsSince w) = some t)
    (hrej : (clientFor testClient w t).ValidateToken t ≠ none) :
    (runLogin testClient w).1 = some "Error: Invalid GitHub token" ∧
    (runLogin testClient w).2.keyring = w.keyring ∧
    (∀ e ∈ (runLogin testClient w).2.eventsSince w, e.isSetToken = false) := by
  have key : ∀ (m : Manager) (pre : List Event),
      (∀ post, candidateValidated (pre ++ post) = candidateValidated post) →
      (∀ e ∈ pre, e.isSetToken = false) →
      runLogin testClient w = loginWithNewToken m testClient { w with trace := w.trace ++ pre } →
      (runLogin testClient w).1 = some "Error: Invalid GitHub token" ∧
      (runLogin testClient w).2.keyring = w.keyring ∧
      (∀ e ∈ (runLogin testClient w).2.eventsSince w, e.isSetToken = false) := by
    intro m pre hpre hset hrun
    obtain ⟨post, htrace, hpost⟩ :=
      loginWithNewToken_rejected m testClient { w with trace := w.trace ++ pre }
    have hev : (runLogin testClient w).2.eventsSince w = pre ++ post := by
      rw [World.eventsSince, hrun, htrace]
      simp
    rw [hev, hpre] at hcand
    have hcf : clientFor testClient { w with trace := w.trace ++ pre } t =
        clientFor testClient w t := by cases testClient <;> rfl
    obtain ⟨h1, h2, h3⟩ := hpost t hcand (by rw [hcf]; exact hrej)
    rw [hev, hrun]
    refine ⟨h1, h2, ?_⟩
    intro e he
    rcases List.mem_append.mp he with h | h
    · exact hset e h
    · exact h3 e h
  have hrun := runLogin_eq testClient w
  cases hm : NewManager w.GetConfigDir with
  | error err =>
    rw [hm] at hrun
    rw [hrun] at hcand
    simp [World.eventsSince, candidateValidated] at hcand
  | ok m =>
    rw [hm] at hrun
    simp only [] at hrun
    cases hg : m.GetToken w.keyring with
    | error err =>
      rw [hg] at hrun
      rw [hrun] at hcand
      simp [World.eventsSince, candidateValidated] at hcand
    | ok existing =>
      rw [hg] at hrun
      simp only [] at hrun
      by_cases hex : existing = ""
      · rw [if_pos hex] at hrun
        exact key m [.getConfigDir, .getToken] (fun _ => rfl) (by simp [Event.isSetToken]) hrun
      · rw [if_neg hex] at hrun
        cases hv : (clientFor testClient w existing).ValidateToken existing with
        | some e =>
          rw [hv] at hrun
          exact key m [.getConfigDir, .getToken, .validateToken existing] (fun _ => rfl)
            (by simp [Event.isSetToken]) hrun
        | none =>
          rw [hv] at hrun
          simp only [] at hrun
          cases hu : (clientFor testClient w existing).GetUser with
          | error e =>
            rw [hu] at hrun
            exact key m [.getConfigDir, .getToken, .validateToken existing, .getUser]
              (fun _ => rfl) (by simp [Event.isSetToken]) hrun
          | ok u =>
            rw [hu] at hrun
            rw [hrun] at hcand
            simp [World.eventsSince, candidateValidated] at hcand

/-- The document of a Config: three members, in the order of the struct fields. -/
theorem Config_encode_shape (c : Config) (doc : Json) (h : c.encode = .ok doc) :
    ∃ backup machine, doc = .obj [("github_token", .str c.GitHubToken),
      ("last_backup", backup), ("machine", machine)] := by
  unfold Config.encode at h
  cases hb : c.LastBackup.MarshalJSON with
  | error e => rw [hb] at h; cases h
  | ok backup =>
    rw [hb] at h
    cases hm : c.Machine.encode with
    | error e => rw [hm] at h; cases h
    | ok machine =>
      rw [hm] at h
      simp only [Except.ok.injEq] at h
      exact ⟨backup, machine, h.symm⟩

/-- The text of an object of three members. -/
theorem render_three (k1 k2 k3 : String) (v1 v2 v3 : Json) :
    (Json.obj [(k1, v1), (k2, v2), (k3, v3)]).render 0 =
      "\x7b\n" ++ ("  " ++ quoteString k1 ++ ": " ++ v1.render 1 ++ ",\n" ++
        ("  " ++ quoteString k2 ++ ": " ++ v2.render 1 ++ ",\n" ++
          ("  " ++ quoteString k3 ++ ": " ++ v3.render 1))) ++ "\n" ++ "" ++ "\x7d" := by
  rfl

theorem append_member (lead key lit rest : String)
    (h : lead ++ "  " ++ quoteString key ++ ": " = lit) :
    lead ++ ("  " ++ (quoteString key ++ (": " ++ rest))) = lit ++ rest := by
  rw [← h]
  simp only [String.append_assoc]

/-- The text of the document of a Config: one member to the line, two spaces in. -/
theorem render_config (token : String) (backup machine : Json) :
    (Json.obj [("github_token", .str token), ("last_backup", backup),
      ("machine", machine)]).render 0 =
      "\x7b\n  \"github_token\": " ++ quoteString token ++ ",\n  \"last_backup\": " ++
        backup.render 1 ++ ",\n  \"machine\": " ++ machine.render 1 ++ "\n\x7d" := by
  rw [render_three]
  simp only [String.append_assoc, Json.render]
  rw [append_member "\x7b\n" "github_token" "\x7b\n  \"github_token\": " _ (by decide),
    append_member ",\n" "last_backup" ",\n  \"last_backup\": " _ (by decide),
    append_member ",\n" "machine" ",\n  \"machine\": " _ (by decide)]
  rfl

/-! ## Lemmas on what decoding leaves -/

/-- Members with unknown keys can be struck from an object: the decoding is the same. -/
theorem decodeMembers_known {α : Type} (tags : List String)
    (setField : String → Json → α → α × Outcome) (members : List (String × Json)) (x : α) :
    decodeMembers tags setField (members.filter (knownKey tags)) x =
      decodeMembers tags setField members x := by
  induction members generalizing x with
  | nil => rfl
  | cons member rest ih =>
    obtain ⟨key, j⟩ := member
    cases hf : fieldFor tags key with
    | none =>
      have hk : knownKey tags (key, j) = false := by simp [knownKey, hf]
      rw [List.filter_cons_of_neg (by simp [hk])]
      rw [ih]
      simp only [decodeMembers, hf]
    | some tag =>
      have hk : knownKey tags (key, j) = true := by simp [knownKey, hf]
      rw [List.filter_cons_of_pos hk]
      simp only [decodeMembers, hf]
      cases hs : setField tag j x with
      | mk x' o =>
        cases o with
        | ok => simp only [ih]
        | typeError e => simp only [ih]
        | aborted e => rfl

/-- A file that holds the one member `machine`: the Config keeps its other fields, and
the machine is the object decoded into the Machine held. -/
theorem Config_decode_machine (c : Config) (inner : Json) :
    (c.decode (.obj [("machine", inner)])).1 =
      { c with Machine := (Machine.decode "Config" "machine" inner c.Machine).1 } := by
  have hf : fieldFor Config.tags "machine" = some "machine" := by decide
  simp only [Config.decode, decodeMembers, hf, Config.setField]
  simp only [show ("machine" = "github_token") = False from by decide,
    show ("machine" = "last_backup") = False from by decide, if_false, if_true]
  cases (Machine.decode "Config" "machine" inner c.Machine).2 <;> rfl

/-- A machine object that holds the one member `labels`: the labels are the object
decoded into the map held. -/
theorem Machine_decode_labels (owner stack : String) (m : Machine) (inner : Json) :
    (Machine.decode owner stack (.obj [("labels", inner)]) m).1 =
      { m with Labels := (decodeMap ("Machine." ++ fieldPath stack "labels") inner m.Labels).1 } := by
  have hf : fieldFor Machine.tags "labels" = some "labels" := by decide
  simp only [Machine.decode, decodeMembers, hf, Machine.setField]
  simp only [show ("labels" = "hostname") = False from by decide,
    show ("labels" = "last_sync") = False from by decide,
    show ("labels" = "dot_files") = False from by decide,
    show ("labels" = "apps") = False from by decide, if_false, if_true]
  cases (decodeMap ("Machine." ++ fieldPath stack "labels") inner m.Labels).2 <;> rfl

/-- A key no member of the object has keeps its entry. -/
theorem decodeEntries_other (field : String) (es : List (String × Json))
    (m : List (String × String)) (k : String) (h : ∀ e ∈ es, e.1 ≠ k) :
    (decodeEntries field es m).1.lookup k = m.lookup k := by
  induction es generalizing m with
  | nil => simp [decodeEntries]
  | cons e rest ih =>
    obtain ⟨key, j⟩ := e
    simp only [decodeEntries]
    rw [ih _ (fun e he => h e (List.mem_cons_of_mem _ he)), lookup_setEntry]
    have hk : k ≠ key := fun hk => h (key, j) (List.mem_cons_self _ _) hk.symm
    simp [hk]


/-! ## Lemmas on the success line of a login -/

theorem isSuccessLine_line (u : String) :
    Event.isSuccessLine (.stdout ("Successfully logged in as " ++ u ++ "\n")) = true := by
  show (("Successfully logged in as " ++ u ++ "\n").data.take successLead.length ==
    successLead.data) = true
  rw [String.append_assoc, String.data_append]
  rw [List.take_left' (by rfl)]
  exact beq_self_eq_true _

theorem successLines_append (a b : List Event) :
    successLines (a ++ b) = successLines a ++ successLines b := by
  simp [successLines]

theorem eventsSince_append (w' w : World) (post : List Event)
    (h : w'.trace = w.trace ++ post) : w'.eventsSince w = post := by
  simp [World.eventsSince, h]

/-- The success lines of a login with a given token: one when the login returns nil
or fails in storing the token, none otherwise. -/
theorem loginWithToken_successLines (m : Manager) (token : String) (tc : Option GitHubClient)
    (w : World) :
    ∃ post, (loginWithToken m token tc w).2.trace = w.trace ++ post ∧
      (successLines post).length =
        if (loginWithToken m token tc w).1 = none ∨
            (loginWithToken m token tc w).1 = some "Error: Could not store token securely"
        then 1 else 0 := by
  rw [loginWithToken_eq]
  by_cases ht : token = ""
  · exact ⟨[], by simp [ht], by simp [ht, successLines]⟩
  · simp only [ht, if_false]
    cases hv : (clientFor tc w token).ValidateToken token with
    | some e => exact ⟨[.validateToken token], rfl, by simp [successLines, Event.isSuccessLine]⟩
    | none =>
      cases (clientFor tc w token).GetUser with
      | error e =>
        exact ⟨[.validateToken token, .getUser], rfl,
          by simp [successLines, Event.isSuccessLine]⟩
      | ok u =>
        cases (m.SetToken token w.keyring).1 with
        | some e =>
          refine ⟨_, rfl, ?_⟩
          simp only [successLines, List.filter_cons, isSuccessLine_line, if_true]
          simp [Event.isSuccessLine]
        | none =>
          refine ⟨_, rfl, ?_⟩
          simp only [successLines, List.filter_cons, isSuccessLine_line, if_true]
          simp [Event.isSuccessLine]

theorem acquireToken_successLines (w : World) :
    ∃ acq, (acquireToken w).2.trace = w.trace ++ acq ∧ successLines acq = [] := by
  rw [acquireToken_eq]
  by_cases h : w.GITHUB_TOKEN.getD "" = ""
  · rw [if_pos h]
    exact ⟨_, rfl, by decide⟩
  · rw [if_neg h]
    exact ⟨_, rfl, by decide⟩

/-- The success lines of a login with a new token, started after events that hold no
success line. -/
theorem loginWithNewToken_successLines (m : Manager) (tc : Option GitHubClient) (w : World)
    (pre : List Event) (hpre : successLines pre = []) :
    ∃ post,
      (loginWithNewToken m tc { w with trace := w.trace ++ pre }).2.trace = w.trace ++ post ∧
      (successLines post).length =
        if (loginWithNewToken m tc { w with trace := w.trace ++ pre }).1 = none ∨
            (loginWithNewToken m tc { w with trace := w.trace ++ pre }).1 =
              some "Already logged in. Use 'logout' command to log out first" ∨
            (loginWithNewToken m tc { w with trace := w.trace ++ pre }).1 =
              some "Error: Could not store token securely"
        then 1 else 0 := by
  have hne := (loginWithNewToken_outcome m tc { w with trace := w.trace ++ pre }).1
  generalize hw₁ : ({ w with trace := w.trace ++ pre } : World) = w₁ at hne ⊢
  have htr : w₁.trace = w.trace ++ pre := by rw [← hw₁]
  unfold loginWithNewToken at hne ⊢
  simp only [] at hne ⊢
  obtain ⟨acq, hacq, hnone⟩ := acquireToken_successLines w₁
  obtain ⟨post, hpost, hcount⟩ :=
    loginWithToken_successLines m (acquireToken w₁).1 tc (acquireToken w₁).2
  refine ⟨pre ++ (acq ++ post), by rw [hpost, hacq, htr]; simp, ?_⟩
  rw [successLines_append, successLines_append, hpre, hnone]
  simp only [List.nil_append, hcount, hne, false_or]

/-- The success lines of a run of runLogin: one when it returns nil, refuses the login
as already logged in or fails in storing the token, none otherwise. -/
theorem runLogin_successLines (tc : Option GitHubClient) (w : World) :
    ∃ post, (runLogin tc w).2.trace = w.trace ++ post ∧
      (successLines post).length =
        if (runLogin tc w).1 = none ∨
            (runLogin tc w).1 = some "Already logged in. Use 'logout' command to log out first" ∨
            (runLogin tc w).1 = some "Error: Could not store token securely"
        then 1 else 0 := by
  have h := runLogin_eq tc w
  cases hm : NewManager w.GetConfigDir with
  | error e =>
    rw [hm] at h
    simp only [] at h
    rw [h]
    refine ⟨[.getConfigDir], rfl, ?_⟩
    simp [successLines, Event.isSuccessLine]
  | ok m =>
    rw [hm] at h
    simp only [] at h
    cases hg : m.GetToken w.keyring with
    | error e =>
      rw [hg] at h
      simp only [] at h
      rw [h]
      refine ⟨[.getConfigDir, .getToken], rfl, ?_⟩
      simp [successLines, Event.isSuccessLine]
    | ok existing =>
      rw [hg] at h
      simp only [] at h
      by_cases hex : existing = ""
      · rw [if_pos hex] at h
        rw [h]
        exact loginWithNewToken_successLines m tc w _ (by decide)
      · rw [if_neg hex] at h
        cases hv : (clientFor tc w existing).ValidateToken existing with
        | some e =>
          rw [hv] at h
          simp only [] at h
          rw [h]
          exact loginWithNewToken_successLines m tc w _ rfl
        | none =>
          rw [hv] at h
          simp only [] at h
          cases hu : (clientFor tc w existing).GetUser with
          | error e =>
            rw [hu] at h
            simp only [] at h
            rw [h]
            exact loginWithNewToken_successLines m tc w _ rfl
          | ok u =>
            rw [hu] at h
            simp only [] at h
            rw [h]
            refine ⟨_, rfl, ?_⟩
            simp only [successLines, List.filter_cons, isSuccessLine_line, if_true]
            simp [Event.isSuccessLine]


/-! ## Lemmas on a write that fails -/

theorem byteSize_append (a b : String) : byteSize (a ++ b) = byteSize a + byteSize b := by
  simp [byteSize, String.data_append, List.map_append, List.sum_append]

/-- The text of an object has bytes: a write of it that stopped before the first byte
leaves the empty file. -/
theorem leftOf_zero (members : List (String × Json)) :
    FileData.leftOf (.obj members) (some 0) = .cut (.obj members) 0 := by
  have hpos : 0 < byteSize ((Json.obj members).render 0) := by
    cases members with
    | nil => decide
    | cons x xs =>
      simp only [Json.render, byteSize_append]
      have h : byteSize "\x7b\n" = 2 := by decide
      omega
  simp only [FileData.leftOf, hpos, if_true]

/-- A Save whose write fails after the file was opened: the error, and what the file
holds. -/
theorem save_write_fails (m : Manager) (c : Config) (d : Disk) (doc : Json) (f : WriteFault)
    (mode : Nat) (hfault : d.fault = none)
    (hdir : d.dirs.lookup (filepathDir m.configPath) = some mode)
    (hdenied : d.denied = none) (hfull : d.full = some f) (henc : c.encode = .ok doc) :
    (m.Save (some c) d).1 = some ("error writing config file: " ++ f.msg) ∧
    (m.Save (some c) d).2.2.ReadFile m.configPath = .ok (.leftOf doc f.written) := by
  simp [Manager.Save, Disk.MkdirAll, Disk.WriteFile, Disk.ReadFile, MarshalIndent, hfault, hdir,
    hdenied, hfull, henc, PathError.Error, List.lookup]

/-! ## Lemmas on what Load leaves of the Config held -/

/-- C1: in every state of the credential store in which the keyring is available,
SetToken with the empty token returns what DeleteToken returns and leaves the store
DeleteToken leaves; the call succeeds, no entry is left under (dotback,
github_token), none holding the empty string either, and GetToken then returns the
empty token with a nil error. -/
theorem C1_setToken_empty_erases (m : Manager) (k : Keyring) (havail : k.fault = none) :
    m.SetToken "" k = KeyringStorage.DeleteToken k ∧
    (m.SetToken "" k).1 = none ∧
    (∀ v, ((serviceName, tokenKey), v) ∉ (m.SetToken "" k).2.secrets) ∧
    (m.SetToken "" k).2.entry serviceName tokenKey = none ∧
    m.GetToken (m.SetToken "" k).2 = .ok "" := by
  have hset : m.SetToken "" k = KeyringStorage.DeleteToken k := by simp [Manager.SetToken]
  have hent := deleteToken_entry k havail
  refine ⟨hset, ?_, ?_, ?_, ?_⟩
  · rw [hset, deleteToken_of_available k havail]
  · intro v hv
    rw [hset] at hv
    have hl : (KeyringStorage.DeleteToken k).2.secrets.lookup (serviceName, tokenKey) = none := hent
    rw [List.lookup_eq_none_iff] at hl
    exact absurd (beq_self_eq_true (serviceName, tokenKey)) (by simpa using hl _ hv)
  · rw [hset]; exact hent
  · rw [hset]
    exact getToken_of_entry_none _ (deleteToken_fault k havail) hent

/-- C1 at a store that holds the empty string as its secret. -/
theorem C1_setToken_empty_erases_witness :
    (Keyring.mk [(("dotback", "github_token"), "")] none none).fault = none ∧
    (Manager.mk "config.json" none).GetToken
      ((Manager.mk "config.json" none).SetToken ""
        (Keyring.mk [(("dotback", "github_token"), "")] none none)).2 = .ok "" :=
  ⟨rfl, (C1_setToken_empty_erases (Manager.mk "config.json" none)
    (Keyring.mk [(("dotback", "github_token"), "")] none none) rfl).2.2.2.2⟩

/-- C2 as stated fails for a client whose ValidateToken accepts the stored token and
whose GetUser then fails: runLogin does not refuse, it reads GITHUB_TOKEN and, here,
replaces the stored token. -/
theorem C2_user_lookup_fails_counterexample :
    (clientFor none
      { GetConfigDir := .ok "/home/u/.config/dotback",
        keyring := Keyring.mk [(("dotback", "github_token"), "stored-token")] none none,
        GITHUB_TOKEN := some "other-token", stdin := [],
        NewClient := fun t =>
          { ValidateToken := fun _ => none,
            GetUser := if t = "stored-token" then .error "connection reset" else .ok "bob" },
        trace := [] } "stored-token").ValidateToken "stored-token" = none ∧
    (runLogin none
      { GetConfigDir := .ok "/home/u/.config/dotback",
        keyring := Keyring.mk [(("dotback", "github_token"), "stored-token")] none none,
        GITHUB_TOKEN := some "other-token", stdin := [],
        NewClient := fun t =>
          { ValidateToken := fun _ => none,
            GetUser := if t = "stored-token" then .error "connection reset" else .ok "bob" },
        trace := [] }).1 = none ∧
    (runLogin none
      { GetConfigDir := .ok "/home/u/.config/dotback",
        keyring := Keyring.mk [(("dotback", "github_token"), "stored-token")] none none,
        GITHUB_TOKEN := some "other-token", stdin := [],
        NewClient := fun t =>
          { ValidateToken := fun _ => none,
            GetUser := if t = "stored-token" then .error "connection reset" else .ok "bob" },
        trace := [] }).2.keyring.entry "dotback" "github_token" = some "other-token" ∧
    (runLogin none
      { GetConfigDir := .ok "/home/u/.config/dotback",
        keyring := Keyring.mk [(("dotback", "github_token"), "stored-token")] none none,
        GITHUB_TOKEN := some "other-token", stdin := [],
        NewClient := fun t =>
          { ValidateToken := fun _ => none,
            GetUser := if t = "stored-token" then .error "connection reset" else .ok "bob" },
        trace := [] }).2.trace =
      [.getConfigDir, .getToken, .validateToken "stored-token", .getUser,
        .getenv "GITHUB_TOKEN", .validateToken "other-token", .getUser,
        .stdout "Successfully logged in as bob\n", .setToken "other-token"] := by
  refine ⟨rfl, by decide, by decide, by decide⟩

/-- C2, amended: in every run in which NewManager succeeds and GetToken returns a
stored token that is not empty, and for which the client's ValidateToken and GetUser
both succeed, runLogin returns the "Already logged in" error, reads neither the
GITHUB_TOKEN variable nor standard input, makes no SetToken call and leaves the
credential store as it was. -/
theorem C2_login_refusal (testClient : Option GitHubClient) (w : World) (m : Manager)
    (existing u : String) (hm : NewManager w.GetConfigDir = .ok m)
    (hget : m.GetToken w.keyring = .ok existing) (hne : existing ≠ "")
    (hval : (clientFor testClient w existing).ValidateToken existing = none)
    (huser : (clientFor testClient w existing).GetUser = .ok u) :
    (runLogin testClient w).1 = some "Already logged in. Use 'logout' command to log out first" ∧
    (runLogin testClient w).2.keyring = w.keyring ∧
    (runLogin testClient w).2.stdin = w.stdin ∧
    (runLogin testClient w).2.eventsSince w =
      [.getConfigDir, .getToken, .validateToken existing, .getUser,
        .stdout ("Successfully logged in as " ++ u ++ "\n")] ∧
    (∀ e ∈ (runLogin testClient w).2.eventsSince w,
      e ≠ .getenv "GITHUB_TOKEN" ∧ e ≠ .scanln ∧ e.isSetToken = false) := by
  have hrun := runLogin_eq testClient w
  rw [hm] at hrun
  simp only [hget, hne, if_false, hval, huser] at hrun
  rw [hrun]
  simp [World.eventsSince, Event.isSetToken]

/-- C2, amended, at a stored token the test client accepts. -/
theorem C2_login_refusal_witness :
    (runLogin (some (NewMockClient "valid-token" false "testuser"))
      { GetConfigDir := .ok "/home/u/.config/dotback",
        keyring := Keyring.mk [(("dotback", "github_token"), "valid-token")] none none,
        GITHUB_TOKEN := some "other-token", stdin := [],
        NewClient := fun _ => NewMockClient "" true "", trace := [] }).1 =
      some "Already logged in. Use 'logout' command to log out first" :=
  (C2_login_refusal (some (NewMockClient "valid-token" false "testuser"))
    { GetConfigDir := .ok "/home/u/.config/dotback",
      keyring := Keyring.mk [(("dotback", "github_token"), "valid-token")] none none,
      GITHUB_TOKEN := some "other-token", stdin := [],
      NewClient := fun _ => NewMockClient "" true "", trace := [] }
    (Manager.mk "/home/u/.config/dotback/config.json" (some Config.zero))
    "valid-token" "testuser" rfl rfl (by decide) rfl rfl).1

/-- C3 as stated fails where the keyring refuses the token: the client accepts the
candidate and the success line is printed, but runLogin returns the store error and
GetToken afterwards returns the empty token. -/
theorem C3_store_refused_counterexample :
    (runLogin (some (NewMockClient "valid-token" false "testuser"))
      { GetConfigDir := .ok "/home/u/.config/dotback", keyring := Keyring.mk [] none (some 8),
        GITHUB_TOKEN := some "valid-token", stdin := [],
        NewClient := fun _ => NewMockClient "" true "", trace := [] }).1 =
      some "Error: Could not store token securely" ∧
    KeyringStorage.GetToken
      (runLogin (some (NewMockClient "valid-token" false "testuser"))
        { GetConfigDir := .ok "/home/u/.config/dotback", keyring := Keyring.mk [] none (some 8),
          GITHUB_TOKEN := some "valid-token", stdin := [],
          NewClient := fun _ => NewMockClient "" true "", trace := [] }).2.keyring = .ok "" := by
  refine ⟨by decide, rfl⟩

/-- C3, amended: in every run of runLogin in which GetToken finds no stored credential,
the candidate token t (GITHUB_TOKEN, or the word read at the prompt when the variable
is unset or empty) is not empty, the client accepts t and reports the user name u, and
SetToken(t) succeeds, runLogin returns nil, writes "Successfully logged in as u" to
standard output, and GetToken afterwards returns t. -/
theorem C3_login_persists (testClient : Option GitHubClient) (w : World) (m : Manager)
    (t u : String) (hm : NewManager w.GetConfigDir = .ok m)
    (hget : m.GetToken w.keyring = .ok "")
    (hcand : w.GITHUB_TOKEN = some t ∨
      ((w.GITHUB_TOKEN = none ∨ w.GITHUB_TOKEN = some "") ∧
        TrimSpace ((Scanln w.stdin).1.getD "") = t))
    (hne : t ≠ "")
    (hval : (clientFor testClient w t).ValidateToken t = none)
    (huser : (clientFor testClient w t).GetUser = .ok u)
    (hset : (m.SetToken t w.keyring).1 = none) :
    (runLogin testClient w).1 = none ∧
    Event.stdout ("Successfully logged in as " ++ u ++ "\n") ∈
      (runLogin testClient w).2.eventsSince w ∧
    m.GetToken (runLogin testClient w).2.keyring = .ok t := by
  have hrun := runLogin_eq testClient w
  rw [hm] at hrun
  simp only [hget, if_true] at hrun
  have hafter := getToken_after_setToken m w.keyring t hne hset
  have hc : ∀ tr inp, clientFor testClient { w with stdin := inp, trace := tr } t =
      clientFor testClient w t := by
    intro tr inp; cases testClient <;> rfl
  rcases hcand with henv | ⟨henv, hprompt⟩
  · have hgetD : w.GITHUB_TOKEN.getD "" = t := by simp [henv]
    have hnot : ¬ (w.GITHUB_TOKEN.getD "" = "") := by rw [hgetD]; exact hne
    simp only [loginWithNewToken, acquireToken_eq, hnot, if_false, loginWithToken_eq, hgetD, hne,
      hc, hval, huser, hset] at hrun
    rw [hrun]
    exact ⟨rfl, by simp [World.eventsSince], hafter⟩
  · have hgetD : w.GITHUB_TOKEN.getD "" = "" := by
      rcases henv with h | h <;> simp [h]
    simp only [loginWithNewToken, acquireToken_eq, hgetD, if_true, loginWithToken_eq, hprompt,
      hne, if_false, hc, hval, huser, hset] at hrun
    rw [hrun]
    exact ⟨rfl, by simp [World.eventsSince], hafter⟩

/-- C3, amended, at the run of the test "Valid token from input". -/
theorem C3_login_persists_witness :
    (runLogin (some (NewMockClient "valid-token" false "testuser"))
      { GetConfigDir := .ok "/home/u/.config/dotback", keyring := Keyring.mk [] none none,
        GITHUB_TOKEN := none, stdin := "valid-token\n".data,
        NewClient := fun _ => NewMockClient "" true "", trace := [] }).1 = none ∧
    (Manager.mk "/home/u/.config/dotback/config.json" (some Config.zero)).GetToken
      (runLogin (some (NewMockClient "valid-token" false "testuser"))
        { GetConfigDir := .ok "/home/u/.config/dotback", keyring := Keyring.mk [] none none,
          GITHUB_TOKEN := none, stdin := "valid-token\n".data,
          NewClient := fun _ => NewMockClient "" true "", trace := [] }).2.keyring =
      .ok "valid-token" :=
  have h := C3_login_persists (some (NewMockClient "valid-token" false "testuser"))
    { GetConfigDir := .ok "/home/u/.config/dotback", keyring := Keyring.mk [] none none,
      GITHUB_TOKEN := none, stdin := "valid-token\n".data,
      NewClient := fun _ => NewMockClient "" true "", trace := [] }
    (Manager.mk "/home/u/.config/dotback/config.json" (some Config.zero))
    "valid-token" "testuser" rfl rfl (Or.inr ⟨Or.inl rfl, by decide⟩) (by decide) rfl rfl
    (by decide)
  ⟨h.1, h.2.2⟩

/-- C4: in every run of runLogin in which the candidate token (the token put to
ValidateToken after the environment variable was read) is one the client rejects,
runLogin returns the invalid-token error, the credential store is left as it was, and
the run makes no SetToken call. -/
theorem C4_rejected_candidate_not_persisted (testClient : Option GitHubClient) (w : World)
    (t : String)
    (hcand : candidateValidated ((runLogin testClient w).2.eventsSince w) = some t)
    (hrej : (clientFor testClient w t).ValidateToken t ≠ none) :
    (runLogin testClient w).1 = some "Error: Invalid GitHub token" ∧
    (runLogin testClient w).2.keyring = w.keyring ∧
    (∀ e ∈ (runLogin testClient w).2.eventsSince w, e.isSetToken = false) := by
  have key : ∀ (m : Manager) (pre : List Event),
      (∀ post, candidateValidated (pre ++ post) = candidateValidated post) →
      (∀ e ∈ pre, e.isSetToken = false) →
      runLogin testClient w = loginWithNewToken m testClient { w with trace := w.trace ++ pre } →
      (runLogin testClient w).1 = some "Error: Invalid GitHub token" ∧
      (runLogin testClient w).2.keyring = w.keyring ∧
      (∀ e ∈ (runLogin testClient w).2.eventsSince w, e.isSetToken = false) := by
    intro m pre hpre hset hrun
    obtain ⟨post, htrace, hpost⟩ :=
      loginWithNewToken_rejected m testClient { w with trace := w.trace ++ pre }
    have hev : (runLogin testClient w).2.eventsSince w = pre ++ post := by
      rw [World.eventsSince, hrun, htrace]
      simp
    rw [hev, hpre] at hcand
    have hcf : clientFor testClient { w with trace := w.trace ++ pre } t =
        clientFor testClient w t := by cases testClient <;> rfl
    obtain ⟨h1, h2, h3⟩ := hpost t hcand (by rw [hcf]; exact hrej)
    rw [hev, hrun]
    refine ⟨h1, h2, ?_⟩
    intro e he
    rcases List.mem_append.mp he with h | h
    · exact hset e h
    · exact h3 e h
  have hrun := runLogin_eq testClient w
  cases hm : NewManager w.GetConfigDir with
  | error err =>
    rw [hm] at hrun
    rw [hrun] at hcand
    simp [World.eventsSince, candidateValidated] at hcand
  | ok m =>
    rw [hm] at hrun
    simp only [] at hrun
    cases hg : m.GetToken w.keyring with
    | error err =>
      rw [hg] at hrun
      rw [hrun] at hcand
      simp [World.eventsSince, candidateValidated] at hcand
    | ok existing =>
      rw [hg] at hrun
      simp only [] at hrun
      by_cases hex : existing = ""
      · rw [if_pos hex] at hrun
        exact key m [.getConfigDir, .getToken] (fun _ => rfl) (by simp [Event.isSetToken]) hrun
      · rw [if_neg hex] at hrun
        cases hv : (clientFor testClient w existing).ValidateToken existing with
        | some e =>
          rw [hv] at hrun
          exact key m [.getConfigDir, .getToken, .validateToken existing] (fun _ => rfl)
            (by simp [Event.isSetToken]) hrun
        | none =>
          rw [hv] at hrun
          simp only [] at hrun
          cases hu : (clientFor testClient w existing).GetUser with
          | error e =>
            rw [hu] at hrun
            exact key m [.getConfigDir, .getToken, .validateToken existing, .getUser]
              (fun _ => rfl) (by simp [Event.isSetToken]) hrun
          | ok u =>
            rw [hu] at hrun
            rw [hrun] at hcand
            simp [World.eventsSince, candidateValidated] at hcand

/-- C4 at the run of the test "Invalid token". -/
theorem C4_rejected_candidate_not_persisted_witness :
    (runLogin (some (NewMockClient "invalid-token" true ""))
      { GetConfigDir := .ok "/home/u/.config/dotback", keyring := Keyring.mk [] none none,
        GITHUB_TOKEN := some "invalid-token", stdin := [],
        NewClient := fun _ => NewMockClient "" true "", trace := [] }).1 =
      some "Error: Invalid GitHub token" :=
  (C4_rejected_candidate_not_persisted (some (NewMockClient "invalid-token" true ""))
    { GetConfigDir := .ok "/home/u/.config/dotback", keyring := Keyring.mk [] none none,
      GITHUB_TOKEN := some "invalid-token", stdin := [],
      NewClient := fun _ => NewMockClient "" true "", trace := [] }
    "invalid-token" (by decide) (by decide)).1

/-- C5: in every run of runLogin with no stored credential in which GITHUB_TOKEN is
unset or empty and the first line of standard input is empty once white space is
trimmed, runLogin returns an error, calls no method of the GitHub client, makes no
SetToken call and leaves the credential store as it was; where the configuration
manager starts and the keyring is available, the error is "GitHub token is
required". -/
theorem C5_empty_candidate_rejected (testClient : Option GitHubClient) (w : World)
    (hnone : w.keyring.entry serviceName tokenKey = none)
    (henv : w.GITHUB_TOKEN = none ∨ w.GITHUB_TOKEN = some "")
    (hblank : TrimSpace (String.mk (w.stdin.takeWhile (fun c => c != '\n'))) = "") :
    (runLogin testClient w).1 ≠ none ∧
    (∀ e ∈ (runLogin testClient w).2.eventsSince w,
      e.isClientCall = false ∧ e.isSetToken = false) ∧
    (runLogin testClient w).2.keyring = w.keyring ∧
    (∀ m, NewManager w.GetConfigDir = .ok m → w.keyring.fault = none →
      (runLogin testClient w).1 = some "Error: GitHub token is required") := by
  have hscan : (Scanln w.stdin).1 = none :=
    Scanln_blank_line _ (all_space_of_trimSpace_empty _ hblank)
  have hgetD : w.GITHUB_TOKEN.getD "" = "" := by
    rcases henv with h | h <;> simp [h]
  have hrun := runLogin_eq testClient w
  cases hm : NewManager w.GetConfigDir with
  | error err =>
    rw [hm] at hrun
    rw [hrun]
    simp [World.eventsSince, Event.isClientCall, Event.isSetToken]
  | ok m =>
    rw [hm] at hrun
    simp only [] at hrun
    cases hf : w.keyring.fault with
    | some msg =>
      have hg : m.GetToken w.keyring = .error ("failed to retrieve token: " ++ msg) := by
        simp [Manager.GetToken, KeyringStorage.GetToken, Keyring.Get, hf, KeyringError.Error]
      rw [hg] at hrun
      rw [hrun]
      simp [World.eventsSince, Event.isClientCall, Event.isSetToken]
    | none =>
      have hg : m.GetToken w.keyring = .ok "" := getToken_of_entry_none _ hf hnone
      rw [hg] at hrun
      simp only [if_true, loginWithNewToken, acquireToken_eq, hgetD, hscan, Option.getD_none,
        trimSpace_empty, loginWithToken_eq] at hrun
      rw [hrun]
      simp [World.eventsSince, Event.isClientCall, Event.isSetToken]

/-- C5 at the run of the test "Empty token". -/
theorem C5_empty_candidate_rejected_witness :
    (runLogin (some (NewMockClient "" true ""))
      { GetConfigDir := .ok "/home/u/.config/dotback", keyring := Keyring.mk [] none none,
        GITHUB_TOKEN := none, stdin := ['\n'],
        NewClient := fun _ => NewMockClient "" true "", trace := [] }).1 ≠ none :=
  (C5_empty_candidate_rejected (some (NewMockClient "" true ""))
    { GetConfigDir := .ok "/home/u/.config/dotback", keyring := Keyring.mk [] none none,
      GITHUB_TOKEN := none, stdin := ['\n'],
      NewClient := fun _ => NewMockClient "" true "", trace := [] }
    rfl (Or.inl rfl) (by decide)).1

/-- C6: for every stored token that is not empty and that the client's ValidateToken
rejects, runLogin does not return the "Already logged in" error; it goes on to read
GITHUB_TOKEN, and its result is the one a login with the same candidate token from an
empty store gives: on success the store holds the candidate, otherwise the store is
left as it was. -/
theorem C6_login_recovery (testClient : Option GitHubClient) (w : World) (m : Manager)
    (existing : String) (e : Error) (hm : NewManager w.GetConfigDir = .ok m)
    (hget : m.GetToken w.keyring = .ok existing) (hne : existing ≠ "")
    (hrej : (clientFor testClient w existing).ValidateToken existing = some e) :
    (runLogin testClient w).1 ≠
      some "Already logged in. Use 'logout' command to log out first" ∧
    Event.getenv "GITHUB_TOKEN" ∈ (runLogin testClient w).2.eventsSince w ∧
    (runLogin testClient w).1 =
      (runLogin testClient { w with keyring := w.keyring.without serviceName tokenKey }).1 ∧
    ((runLogin testClient w).1 = none →
      m.GetToken (runLogin testClient w).2.keyring = .ok (acquireToken w).1) ∧
    ((runLogin testClient w).1 ≠ none → (runLogin testClient w).2.keyring = w.keyring) := by
  have hrun := runLogin_eq testClient w
  rw [hm] at hrun
  simp only [hget, hne, if_false, hrej] at hrun
  have hfault : w.keyring.fault = none := by
    cases hf : w.keyring.fault with
    | none => rfl
    | some msg =>
      simp [Manager.GetToken, KeyringStorage.GetToken, Keyring.Get, hf] at hget
  have hfresh := runLogin_eq testClient
    { w with keyring := w.keyring.without serviceName tokenKey }
  have hget0 : m.GetToken (w.keyring.without serviceName tokenKey) = .ok "" :=
    getToken_of_entry_none _ hfault (lookup_filter_ne_self (serviceName, tokenKey) w.keyring.secrets)
  simp only [hm, hget0, if_true] at hfresh
  obtain ⟨h1, ⟨post, h2⟩, h3, h4⟩ := loginWithNewToken_outcome m testClient
    { w with trace := w.trace ++ [.getConfigDir, .getToken, .validateToken existing] }
  rw [hrun, hfresh]
  refine ⟨h1, ?_, ?_, ?_, ?_⟩
  · rw [World.eventsSince, h2]
    simp
  · exact loginWithNewToken_result_congr m testClient _ _ rfl rfl rfl rfl rfl
  · intro h
    rw [h3 h]
    exact congrArg Except.ok (acquireToken_token_congr _ _ rfl rfl)
  · intro h
    exact h4 h

/-- C6 at the stored token "expired", rejected, with a new token in GITHUB_TOKEN that
the client of that token accepts. -/
theorem C6_login_recovery_witness :
    (runLogin none
      { GetConfigDir := .ok "/home/u/.config/dotback",
        keyring := Keyring.mk [(("dotback", "github_token"), "expired")] none none,
        GITHUB_TOKEN := some "fresh-token", stdin := [],
        NewClient := fun t => NewMockClient t (decide (t = "expired")) "alice",
        trace := [] }).1 ≠
      some "Already logged in. Use 'logout' command to log out first" :=
  (C6_login_recovery none
    { GetConfigDir := .ok "/home/u/.config/dotback",
      keyring := Keyring.mk [(("dotback", "github_token"), "expired")] none none,
      GITHUB_TOKEN := some "fresh-token", stdin := [],
      NewClient := fun t => NewMockClient t (decide (t = "expired")) "alice",
      trace := [] }
    (Manager.mk "/home/u/.config/dotback/config.json" (some Config.zero))
    "expired" "mock validation failed" rfl rfl (by decide) rfl).1

/-- C7: for every token t that is not empty and every earlier state of the
credential store, when SetToken(t) returns nil the store holds t itself under
(dotback, github_token) and the next GetToken returns t with a nil error. -/
theorem C7_token_round_trip (m : Manager) (k : Keyring) (t : String) (hne : t ≠ "")
    (hset : (m.SetToken t k).1 = none) :
    (m.SetToken t k).2.entry serviceName tokenKey = some t ∧
    m.GetToken (m.SetToken t k).2 = .ok t := by
  have hstore : m.SetToken t k = KeyringStorage.StoreToken t k := by
    simp [Manager.SetToken, hne]
  rw [hstore] at hset ⊢
  obtain ⟨havail, hk⟩ := storeToken_ok k t hset
  have hent : (KeyringStorage.StoreToken t k).2.entry serviceName tokenKey = some t := by
    rw [hk]
    exact lookup_cons_self _ _ _
  refine ⟨hent, ?_⟩
  apply getToken_of_entry_some _ _ t hent
  rw [hk]
  exact havail

/-- C7 at a store that already holds another token. -/
theorem C7_token_round_trip_witness :
    "new-token" ≠ "" ∧
    ((Manager.mk "config.json" none).SetToken "new-token"
      (Keyring.mk [(("dotback", "github_token"), "old-token")] none none)).1 = none ∧
    (Manager.mk "config.json" none).GetToken
      ((Manager.mk "config.json" none).SetToken "new-token"
        (Keyring.mk [(("dotback", "github_token"), "old-token")] none none)).2 =
      .ok "new-token" :=
  ⟨by decide, by decide,
    (C7_token_round_trip (Manager.mk "config.json" none)
      (Keyring.mk [(("dotback", "github_token"), "old-token")] none none) "new-token"
      (by decide) (by decide)).2⟩

/-- C8 as stated fails where the keyring cannot be reached: SetToken with the empty
token, and so runLogout, returns an error; and runLogout fails, whatever the store
holds, where the configuration directory does not resolve. -/
theorem C8_unavailable_store_counterexample :
    ((Manager.mk "config.json" none).SetToken ""
      (Keyring.mk [] (some "no secret service") none)).1 =
      some "failed to delete token: no secret service" ∧
    (runLogout
      { GetConfigDir := .ok "/home/u/.config/dotback",
        keyring := Keyring.mk [] (some "no secret service") none,
        GITHUB_TOKEN := none, stdin := [], NewClient := fun _ => NewMockClient "" true "",
        trace := [] }).1 = some "Error: Could not remove stored token" ∧
    (runLogout
      { GetConfigDir := .error "error getting home directory: $HOME is not defined",
        keyring := Keyring.mk [] none none,
        GITHUB_TOKEN := none, stdin := [], NewClient := fun _ => NewMockClient "" true "",
        trace := [] }).1 = some "Error: Could not initialize configuration" := by
  refine ⟨by decide, by decide, by decide⟩

/-- C8, amended: with the keyring available, DeleteToken on a store holding no secret
returns nil and leaves the store as it was; two calls of SetToken with the empty
token in a row both return nil and leave no entry under (dotback, github_token);
and where the configuration directory resolves, two runs of runLogout in a row
(the first from any store content, also from a store with no credential) both
return nil and leave no entry. -/
theorem C8_erase_idempotent (m : Manager) (w : World) (dir : String)
    (hdir : w.GetConfigDir = .ok dir) (havail : w.keyring.fault = none) :
    (w.keyring.entry serviceName tokenKey = none →
      KeyringStorage.DeleteToken w.keyring = (none, w.keyring)) ∧
    (m.SetToken "" w.keyring).1 = none ∧
    (m.SetToken "" (m.SetToken "" w.keyring).2).1 = none ∧
    (m.SetToken "" (m.SetToken "" w.keyring).2).2.entry serviceName tokenKey = none ∧
    (runLogout w).1 = none ∧
    (runLogout (runLogout w).2).1 = none ∧
    (runLogout (runLogout w).2).2.keyring.entry serviceName tokenKey = none := by
  have hset : ∀ k, m.SetToken "" k = KeyringStorage.DeleteToken k := by
    intro k; simp [Manager.SetToken]
  have h1 := deleteToken_of_available w.keyring havail
  have hf1 := deleteToken_fault w.keyring havail
  have h2 := deleteToken_of_available _ hf1
  have hf2 := deleteToken_fault _ hf1
  obtain ⟨l1, lk1, ld1⟩ := runLogout_of_available w dir hdir havail
  have hf3 : (runLogout w).2.keyring.fault = none := by rw [lk1]; exact hf1
  obtain ⟨l2, lk2, _⟩ := runLogout_of_available (runLogout w).2 dir (by rw [ld1]; exact hdir) hf3
  refine ⟨?_, ?_, ?_, ?_, l1, l2, ?_⟩
  · intro hnone
    rw [h1, hnone]
  · rw [hset, h1]
  · rw [hset, hset, h2]
  · rw [hset, hset]
    exact deleteToken_entry _ hf1
  · rw [lk2]
    exact deleteToken_entry _ hf3

/-- C8, amended, at a store that holds a token. -/
theorem C8_erase_idempotent_witness :
    (runLogout (runLogout
      { GetConfigDir := .ok "/home/u/.config/dotback",
        keyring := Keyring.mk [(("dotback", "github_token"), "tok")] none none,
        GITHUB_TOKEN := none, stdin := [], NewClient := fun _ => NewMockClient "" true "",
        trace := [] }).2).1 = none :=
  (C8_erase_idempotent (Manager.mk "config.json" none)
    { GetConfigDir := .ok "/home/u/.config/dotback",
      keyring := Keyring.mk [(("dotback", "github_token"), "tok")] none none,
      GITHUB_TOKEN := none, stdin := [], NewClient := fun _ => NewMockClient "" true "",
      trace := [] } "/home/u/.config/dotback" rfl rfl).2.2.2.2.2.1

/-- C9: GetToken returns the empty token with a nil error when the keyring reports
not-found, returns t with a nil error when the keyring returns t, and returns an
error (never a token with a nil error) for every other failure of the keyring. -/
theorem C9_getToken_absence_only (k : Keyring) :
    (k.Get serviceName tokenKey = .error .ErrNotFound → KeyringStorage.GetToken k = .ok "") ∧
    (∀ t, k.Get serviceName tokenKey = .ok t → KeyringStorage.GetToken k = .ok t) ∧
    (∀ e, k.Get serviceName tokenKey = .error e → e ≠ .ErrNotFound →
      KeyringStorage.GetToken k = .error ("failed to retrieve token: " ++ e.Error)) := by
  refine ⟨?_, ?_, ?_⟩
  · intro h
    simp [KeyringStorage.GetToken, h]
  · intro t h
    simp [KeyringStorage.GetToken, h]
  · intro e h hne
    simp [KeyringStorage.GetToken, h, hne]

/-- C9 at an empty store, at a store holding a token and at an unreachable store. -/
theorem C9_getToken_absence_only_witness :
    KeyringStorage.GetToken (Keyring.mk [] none none) = .ok "" ∧
    KeyringStorage.GetToken (Keyring.mk [(("dotback", "github_token"), "tok")] none none) =
      .ok "tok" ∧
    KeyringStorage.GetToken (Keyring.mk [] (some "no secret service") none) =
      .error "failed to retrieve token: no secret service" :=
  ⟨(C9_getToken_absence_only (Keyring.mk [] none none)).1 rfl,
    (C9_getToken_absence_only (Keyring.mk [(("dotback", "github_token"), "tok")] none none)).2.1
      "tok" rfl,
    (C9_getToken_absence_only (Keyring.mk [] (some "no secret service") none)).2.2
      (.backend "no secret service") rfl (by decide)⟩

/-- C11 as stated fails for a manager that holds a Config other than the zero one: after
a SetMachine that failed on a file system that refuses to create the directory, the
manager holds the new Machine, and Load, with no config.json, returns that Config. -/
theorem C11_held_config_counterexample :
    ((Manager.mk "/home/u/.config/dotback/config.json" (some Config.zero)).SetMachine
      { Machine.zero with Hostname := "new-host" }
      (Disk.mk [] [] none (some "read-only file system") none)).2.1.Load
        (Disk.mk [] [] none (some "read-only file system") none) =
      (.ok (some { Config.zero with Machine := { Machine.zero with Hostname := "new-host" } }),
        Manager.mk "/home/u/.config/dotback/config.json"
          (some { Config.zero with Machine := { Machine.zero with Hostname := "new-host" } })) := by
  rfl

/-- C11, amended: for every manager state, Load on a directory with no config.json
(os.ReadFile reports that the file does not exist) returns the Config the manager
holds, with a nil error, and leaves the manager as it was; for a manager that holds
the zero Config, as NewManager returns it, that is the zero Config. -/
theorem C11_load_missing_file (m : Manager) (d : Disk)
    (hmissing : d.ReadFile m.configPath = .error (.notExist m.configPath)) :
    m.Load d = (.ok m.config, m) ∧
    (∀ dir, NewManager (.ok dir) = .ok m → (m.Load d).1 = .ok (some Config.zero)) := by
  have h := load_missing m d m.configPath hmissing
  refine ⟨h, ?_⟩
  intro dir hnew
  rw [h]
  simp only [NewManager, Except.ok.injEq] at hnew
  rw [← hnew]

/-- C11, amended, at a new manager and an empty disk. -/
theorem C11_load_missing_file_witness :
    ((Manager.mk "/home/u/.config/dotback/config.json" (some Config.zero)).Load
      (Disk.mk [] [] none none none)).1 = .ok (some Config.zero) :=
  (C11_load_missing_file (Manager.mk "/home/u/.config/dotback/config.json" (some Config.zero))
    (Disk.mk [] [] none none none) rfl).2 "/home/u/.config/dotback" rfl

/-- C13 at its failing input: config.json holds well-formed JSON with a number under
`description`; Load on a manager as NewManager returns it, which holds the zero
Config, returns a parse error, and yet the Config held in memory has changed: the
hostname read before the mismatch is in it. -/
theorem C13_load_error_changes_memory :
    NewManager (.ok "/home/u/.config/dotback") =
      .ok (Manager.mk "/home/u/.config/dotback/config.json" (some Config.zero)) ∧
    (∃ msg, ((Manager.mk "/home/u/.config/dotback/config.json" (some Config.zero)).Load
      (Disk.mk [("/home/u/.config/dotback", 0o755)]
        [("/home/u/.config/dotback/config.json",
          File.mk (.json (.obj [("machine",
            .obj [("hostname", .str "new-host"), ("description", .num "5")])])) 0o644)]
        none none none)).1 = .error ("error parsing config file: " ++ msg)) ∧
    ((Manager.mk "/home/u/.config/dotback/config.json" (some Config.zero)).Load
      (Disk.mk [("/home/u/.config/dotback", 0o755)]
        [("/home/u/.config/dotback/config.json",
          File.mk (.json (.obj [("machine",
            .obj [("hostname", .str "new-host"), ("description", .num "5")])])) 0o644)]
        none none none)).2 =
      Manager.mk "/home/u/.config/dotback/config.json"
        (some { Config.zero with Machine := { Machine.zero with Hostname := "new-host" } }) :=
  ⟨rfl, ⟨_, rfl⟩, rfl⟩

/-- C14 at its failing input: SetMachine on a new manager, on a file system that refuses
to create the configuration directory, returns an error, and yet the manager holds the
new Machine afterwards: GetMachine returned the zero Machine before the call and
returns the new one after it. -/
theorem C14_setMachine_failure_changes_memory :
    ((Manager.mk "/home/u/.config/dotback/config.json" (some Config.zero)).SetMachine
      { Machine.zero with Hostname := "new-host" }
      (Disk.mk [] [] none (some "read-only file system") none)).1 =
      .returned (some "error creating config directory: read-only file system") ∧
    ((Manager.mk "/home/u/.config/dotback/config.json" (some Config.zero)).GetMachine
      (Disk.mk [] [] none (some "read-only file system") none)).1 =
      .returned (.ok Machine.zero) ∧
    (((Manager.mk "/home/u/.config/dotback/config.json" (some Config.zero)).SetMachine
      { Machine.zero with Hostname := "new-host" }
      (Disk.mk [] [] none (some "read-only file system") none)).2.1.GetMachine
        (Disk.mk [] [] none (some "read-only file system") none)).1 =
      .returned (.ok { Machine.zero with Hostname := "new-host" }) :=
  ⟨rfl, rfl, rfl⟩

/-- C15 fails as stated where the write fails after the file was opened: config.json
held a document, Save returns an error, and the file is left empty, so that a Load
afterwards fails. -/
theorem C15_truncated_file_counterexample :
    (Disk.mk [("/home/u/.config/dotback", 0o755)]
      [("/home/u/.config/dotback/config.json",
        File.mk (.json (.obj [("machine", .obj [("hostname", .str "old-host")])])) 0o644)]
      none none
      (some (WriteFault.mk "write /home/u/.config/dotback/config.json: no space left on device"
        (some 0)))).ReadFile "/home/u/.config/dotback/config.json" =
      .ok (.json (.obj [("machine", .obj [("hostname", .str "old-host")])])) ∧
    ((Manager.mk "/home/u/.config/dotback/config.json" (some Config.zero)).Save
      (some Config.zero)
      (Disk.mk [("/home/u/.config/dotback", 0o755)]
        [("/home/u/.config/dotback/config.json",
          File.mk (.json (.obj [("machine", .obj [("hostname", .str "old-host")])])) 0o644)]
        none none
        (some (WriteFault.mk "write /home/u/.config/dotback/config.json: no space left on device"
          (some 0))))).1 =
      some ("error writing config file: " ++
        "write /home/u/.config/dotback/config.json: no space left on device") ∧
    (∃ doc, ((Manager.mk "/home/u/.config/dotback/config.json" (some Config.zero)).Save
      (some Config.zero)
      (Disk.mk [("/home/u/.config/dotback", 0o755)]
        [("/home/u/.config/dotback/config.json",
          File.mk (.json (.obj [("machine", .obj [("hostname", .str "old-host")])])) 0o644)]
        none none
        (some (WriteFault.mk "write /home/u/.config/dotback/config.json: no space left on device"
          (some 0))))).2.2.ReadFile "/home/u/.config/dotback/config.json" = .ok (.cut doc 0)) ∧
    ((Manager.mk "/home/u/.config/dotback/config.json" (some Config.zero)).Load
      ((Manager.mk "/home/u/.config/dotback/config.json" (some Config.zero)).Save
        (some Config.zero)
        (Disk.mk [("/home/u/.config/dotback", 0o755)]
          [("/home/u/.config/dotback/config.json",
            File.mk (.json (.obj [("machine", .obj [("hostname", .str "old-host")])])) 0o644)]
          none none
          (some (WriteFault.mk
            "write /home/u/.config/dotback/config.json: no space left on device"
            (some 0))))).2.2).1 =
      .error "error parsing config file: unexpected end of JSON input" := by
  have hread : ((Manager.mk "/home/u/.config/dotback/config.json" (some Config.zero)).Save
      (some Config.zero)
      (Disk.mk [("/home/u/.config/dotback", 0o755)]
        [("/home/u/.config/dotback/config.json",
          File.mk (.json (.obj [("machine", .obj [("hostname", .str "old-host")])])) 0o644)]
        none none
        (some (WriteFault.mk "write /home/u/.config/dotback/config.json: no space left on device"
          (some 0))))).2.2.ReadFile "/home/u/.config/dotback/config.json" =
      .ok (.cut (.obj [("github_token", .str ""), ("last_backup", .str "0001-01-01T00:00:00Z"),
        ("machine", .obj [("hostname", .str ""), ("last_sync", .str "0001-01-01T00:00:00Z"),
          ("dot_files", .null), ("apps", .null), ("labels", .null),
          ("description", .str "")])]) 0) :=
    ((save_write_fails _ Config.zero _ _ _ 0o755 rfl (by decide) rfl rfl rfl).2).trans
      (congrArg Except.ok (leftOf_zero _))
  exact ⟨rfl, rfl, ⟨_, hread⟩, by rw [load_cut _ _ _ 0 hread]⟩

/-- C15, amended: when Save returns an error, either no file was touched (the failure
was in creating the directory, in encoding the Config or in opening the file), or the
failure came after config.json was opened and cut to length zero, in writing the data
or in closing the file: then config.json holds the bytes of the new document that
were written before the failure (none of them, the first of them, or all of them) and
every other file is as it was. On a file system that does not fail after a file was
opened, a Save that returns an error leaves every file with its earlier content. -/
theorem C15_save_failure_files (m : Manager) (config : Option Config) (d : Disk)
    (h : (m.Save config d).1 ≠ none) :
    ((m.Save config d).2.2.files = d.files ∨
      ∃ f doc, d.full = some f ∧ MarshalIndent config = .ok doc ∧
        (m.Save config d).2.2.ReadFile m.configPath = .ok (.leftOf doc f.written) ∧
        ∀ other, other ≠ m.configPath →
          (m.Save config d).2.2.files.lookup other = d.files.lookup other) ∧
    (d.full = none → (m.Save config d).2.2.files = d.files) := by
  rw [save_eq] at h ⊢
  obtain ⟨hfiles, hfull, _⟩ := mkdirAll_files d (filepathDir m.configPath) 0o755
  cases hmk : d.MkdirAll (filepathDir m.configPath) 0o755 with
  | mk err d₁ =>
    rw [hmk] at h hfiles hfull
    simp only [] at hfiles hfull
    cases err with
    | some e => exact ⟨Or.inl hfiles, fun _ => hfiles⟩
    | none =>
      simp only [] at h ⊢
      cases henc : MarshalIndent config with
      | error e => exact ⟨Or.inl hfiles, fun _ => hfiles⟩
      | ok doc =>
        rw [henc] at h
        simp only [] at h ⊢
        have hw := writeFile_failed d₁ m.configPath doc 0o644
        cases hwr : d₁.WriteFile m.configPath doc 0o644 with
        | mk werr d₂ =>
          rw [hwr] at h hw
          cases werr with
          | none => simp at h
          | some e =>
            simp only [] at hw ⊢
            obtain ⟨hkeep, hor⟩ := hw (by simp)
            refine ⟨?_, ?_⟩
            · rcases hor with h1 | ⟨f, h1, h2, h3⟩
              · left; rw [h1]; exact hfiles
              · right
                refine ⟨f, doc, by rw [← hfull]; exact h1, rfl, h2, ?_⟩
                intro other hne
                rw [h3 other hne, hfiles]
            · intro hnofull
              rw [hkeep (by rw [hfull]; exact hnofull)]
              exact hfiles

/-- C15, amended, at a file system that refuses to open the file for writing. -/
theorem C15_save_failure_files_witness :
    ((Manager.mk "/home/u/.config/dotback/config.json" (some Config.zero)).Save
      (some Config.zero)
      (Disk.mk [("/home/u/.config/dotback", 0o755)]
        [("/home/u/.config/dotback/config.json", File.mk (.text "old") 0o644)]
        none (some "read-only file system") none)).2.2.files =
      [("/home/u/.config/dotback/config.json", File.mk (.text "old") 0o644)] :=
  (C15_save_failure_files (Manager.mk "/home/u/.config/dotback/config.json" (some Config.zero))
    (some Config.zero)
    (Disk.mk [("/home/u/.config/dotback", 0o755)]
      [("/home/u/.config/dotback/config.json", File.mk (.text "old") 0o644)]
      none (some "read-only file system") none) (by decide)).2 rfl

/-- C16 fails as stated: Save of a Config whose token field is "ghp_secret" writes a
document whose first top-level key is github_token, with that value, and the text of the
file shows it. -/
theorem C16_token_written_counterexample :
    ((Manager.mk "/home/u/.config/dotback/config.json" (some Config.zero)).Save
      (some { Config.zero with GitHubToken := "ghp_secret" })
      (Disk.mk [] [] none none none)).1 = none ∧
    ((Manager.mk "/home/u/.config/dotback/config.json" (some Config.zero)).Save
      (some { Config.zero with GitHubToken := "ghp_secret" })
      (Disk.mk [] [] none none none)).2.2.ReadFile "/home/u/.config/dotback/config.json" =
      .ok (.json (.obj [("github_token", .str "ghp_secret"),
        ("last_backup", .str "0001-01-01T00:00:00Z"),
        ("machine", .obj [("hostname", .str ""), ("last_sync", .str "0001-01-01T00:00:00Z"),
          ("dot_files", .null), ("apps", .null), ("labels", .null),
          ("description", .str "")])])) ∧
    (Json.obj [("github_token", .str "ghp_secret"),
        ("last_backup", .str "0001-01-01T00:00:00Z"),
        ("machine", .obj [("hostname", .str ""), ("last_sync", .str "0001-01-01T00:00:00Z"),
          ("dot_files", .null), ("apps", .null), ("labels", .null),
          ("description", .str "")])]).render 0 =
      "\x7b\n  \"github_token\": \"ghp_secret\",\n  \"last_backup\": \"0001-01-01T00:00:00Z\",\n" ++
      "  \"machine\": \x7b\n    \"hostname\": \"\",\n" ++
      "    \"last_sync\": \"0001-01-01T00:00:00Z\",\n    \"dot_files\": null,\n" ++
      "    \"apps\": null,\n    \"labels\": null,\n    \"description\": \"\"\n  \x7d\n\x7d" :=
  ⟨rfl, rfl, rfl⟩

/-- C16, amended: when Save of a Config returns nil, the document written to config.json
has exactly the top-level keys github_token, last_backup and machine, in this order, the
value of github_token being the token field of the Config, and its text has one member
to the line, indented with two spaces. -/
theorem C16_save_document (m : Manager) (c : Config) (d : Disk)
    (h : (m.Save (some c) d).1 = none) :
    ∃ backup machine,
      (m.Save (some c) d).2.2.ReadFile m.configPath =
        .ok (.json (.obj [("github_token", .str c.GitHubToken), ("last_backup", backup),
          ("machine", machine)])) ∧
      (Json.obj [("github_token", .str c.GitHubToken), ("last_backup", backup),
          ("machine", machine)]).render 0 =
        "\x7b\n  \"github_token\": " ++ quoteString c.GitHubToken ++ ",\n  \"last_backup\": " ++
          backup.render 1 ++ ",\n  \"machine\": " ++ machine.render 1 ++ "\n\x7d" := by
  obtain ⟨doc, henc, _, hread⟩ := save_ok m c d h
  obtain ⟨backup, machine, hdoc⟩ := Config_encode_shape c doc henc
  subst hdoc
  exact ⟨backup, machine, hread, render_config c.GitHubToken backup machine⟩

/-- C16 amended, at a Config with a token, saved on an empty disk. -/
theorem C16_save_document_witness :
    ∃ backup machine,
      ((Manager.mk "/home/u/.config/dotback/config.json" (some Config.zero)).Save
        (some { Config.zero with GitHubToken := "ghp_secret" })
        (Disk.mk [] [] none none none)).2.2.ReadFile "/home/u/.config/dotback/config.json" =
        .ok (.json (.obj [("github_token", .str "ghp_secret"), ("last_backup", backup),
          ("machine", machine)])) ∧
      (Json.obj [("github_token", .str "ghp_secret"), ("last_backup", backup),
          ("machine", machine)]).render 0 =
        "\x7b\n  \"github_token\": " ++ quoteString "ghp_secret" ++ ",\n  \"last_backup\": " ++
          backup.render 1 ++ ",\n  \"machine\": " ++ machine.render 1 ++ "\n\x7d" :=
  C16_save_document (Manager.mk "/home/u/.config/dotback/config.json" (some Config.zero))
    { Config.zero with GitHubToken := "ghp_secret" } (Disk.mk [] [] none none none) rfl

/-- C17 at its failing input: config.json holds the Config another manager saved, with
the machine record of hostname "disk-host"; Load by a new manager returns that record,
but GetMachine on a new manager on which Load was not called returns the zero Machine
with a nil error, and leaves the manager as NewManager made it. -/
theorem C17_getMachine_without_load :
    ((Manager.mk "/home/u/.config/dotback/config.json" (some Config.zero)).Load
      ((Manager.mk "/home/u/.config/dotback/config.json" (some Config.zero)).Save
        (some { Config.zero with Machine := { Machine.zero with Hostname := "disk-host" } })
        (Disk.mk [] [] none none none)).2.2).1 =
      .ok (some { Config.zero with Machine := { Machine.zero with Hostname := "disk-host" } }) ∧
    NewManager (.ok "/home/u/.config/dotback") =
      .ok (Manager.mk "/home/u/.config/dotback/config.json" (some Config.zero)) ∧
    (Manager.mk "/home/u/.config/dotback/config.json" (some Config.zero)).GetMachine
      ((Manager.mk "/home/u/.config/dotback/config.json" (some Config.zero)).Save
        (some { Config.zero with Machine := { Machine.zero with Hostname := "disk-host" } })
        (Disk.mk [] [] none none none)).2.2 =
      (.returned (.ok Machine.zero),
        Manager.mk "/home/u/.config/dotback/config.json" (some Config.zero)) :=
  ⟨rfl, rfl, rfl⟩

/-- C19 as stated fails: Save on an empty disk makes the configuration directory with
the mode 0755 and config.json with the mode 0644, and both grant permissions to group
and others (read and search for the directory, read for the file). -/
theorem C19_group_other_bits_counterexample :
    ((Manager.mk "/home/u/.config/dotback/config.json" (some Config.zero)).Save
      (some Config.zero) (Disk.mk [] [] none none none)).2.2.dirs.lookup
        "/home/u/.config/dotback" = some 0o755 ∧
    (((Manager.mk "/home/u/.config/dotback/config.json" (some Config.zero)).Save
      (some Config.zero) (Disk.mk [] [] none none none)).2.2.files.lookup
        "/home/u/.config/dotback/config.json").map File.mode = some 0o644 ∧
    0o755 &&& 0o077 = 0o055 ∧ 0o644 &&& 0o077 = 0o044 := by
  refine ⟨by decide, by decide, by decide, by decide⟩

/-- C19, amended: a Save that returns nil has made a missing configuration directory
with the mode 0755 and a missing config.json with the mode 0644 (a file that was there
keeps its mode); these modes grant no write permission to group or others, and they
grant them read permission, and for the directory search permission. -/
theorem C19_save_modes (m : Manager) (config : Option Config) (d : Disk)
    (h : (m.Save config d).1 = none) :
    (d.dirs.lookup (filepathDir m.configPath) = none →
      (m.Save config d).2.2.dirs.lookup (filepathDir m.configPath) = some 0o755) ∧
    ((m.Save config d).2.2.files.lookup m.configPath).map File.mode =
      some (((d.files.lookup m.configPath).map File.mode).getD 0o644) ∧
    (0o755 &&& 0o022 = 0 ∧ 0o644 &&& 0o022 = 0) ∧
    (0o755 &&& 0o077 = 0o055 ∧ 0o644 &&& 0o077 = 0o044) := by
  refine ⟨?_, ?_, ⟨by decide, by decide⟩, ⟨by decide, by decide⟩⟩
  · intro hmissing
    rw [save_eq] at h ⊢
    have hmode := mkdirAll_mode d (filepathDir m.configPath) 0o755
    cases hmk : d.MkdirAll (filepathDir m.configPath) 0o755 with
    | mk err d₁ =>
      rw [hmk] at h hmode
      cases err with
      | some e => simp at h
      | none =>
        simp only [] at h hmode ⊢
        cases henc : MarshalIndent config with
        | error e => rw [henc] at h; simp at h
        | ok doc =>
          rw [henc] at h
          simp only [] at h ⊢
          have hw := writeFile_mode d₁ m.configPath doc 0o644
          cases hwr : d₁.WriteFile m.configPath doc 0o644 with
          | mk werr d₂ =>
            rw [hwr] at h hw
            cases werr with
            | some e => simp at h
            | none =>
              simp only [] at hw ⊢
              rw [(hw trivial).1]
              exact hmode trivial hmissing
  · rw [save_eq] at h ⊢
    obtain ⟨hfiles, _, _⟩ := mkdirAll_files d (filepathDir m.configPath) 0o755
    cases hmk : d.MkdirAll (filepathDir m.configPath) 0o755 with
    | mk err d₁ =>
      rw [hmk] at h hfiles
      cases err with
      | some e => simp at h
      | none =>
        simp only [] at h hfiles ⊢
        cases henc : MarshalIndent config with
        | error e => rw [henc] at h; simp at h
        | ok doc =>
          rw [henc] at h
          simp only [] at h ⊢
          have hw := writeFile_mode d₁ m.configPath doc 0o644
          cases hwr : d₁.WriteFile m.configPath doc 0o644 with
          | mk werr d₂ =>
            rw [hwr] at h hw
            cases werr with
            | some e => simp at h
            | none =>
              simp only [] at hw ⊢
              rw [(hw trivial).2, hfiles]

/-- C19, amended, at a Save to an empty disk. -/
theorem C19_save_modes_witness :
    ((Manager.mk "/home/u/.config/dotback/config.json" (some Config.zero)).Save
      (some Config.zero) (Disk.mk [] [] none none none)).2.2.dirs.lookup
        (filepathDir "/home/u/.config/dotback/config.json") = some 0o755 :=
  (C19_save_modes (Manager.mk "/home/u/.config/dotback/config.json" (some Config.zero))
    (some Config.zero) (Disk.mk [] [] none none none) (by decide)).1 (by decide)

/-- C20 as stated fails: for a candidate the remote rejects and for a candidate whose
validation fails in transport, runLogin returns the same error. -/
theorem C20_same_error_counterexample :
    (runLogin
      (some { ValidateToken := fun _ => some "invalid token: 401 Bad credentials",
              GetUser := .error "error getting user" })
      { GetConfigDir := .ok "/home/u/.config/dotback", keyring := Keyring.mk [] none none,
        GITHUB_TOKEN := some "revoked-token", stdin := [],
        NewClient := fun _ => NewMockClient "" true "", trace := [] }).1 =
      some "Error: Invalid GitHub token" ∧
    (runLogin
      (some { ValidateToken := fun _ => some "invalid token: dial tcp: connection refused",
              GetUser := .error "error getting user" })
      { GetConfigDir := .ok "/home/u/.config/dotback", keyring := Keyring.mk [] none none,
        GITHUB_TOKEN := some "good-token", stdin := [],
        NewClient := fun _ => NewMockClient "" true "", trace := [] }).1 =
      some "Error: Invalid GitHub token" :=
  ⟨by decide, by decide⟩

/-- C20, amended: for every two runs of runLogin in each of which ValidateToken fails on
the candidate token, whatever the error it fails with (a rejection by the remote, or a
failure of transport), runLogin returns the same error, "Error: Invalid GitHub token". -/
theorem C20_validation_failures_alike (tc₁ tc₂ : Option GitHubClient) (w₁ w₂ : World)
    (t₁ t₂ : String) (e₁ e₂ : Error)
    (hcand₁ : candidateValidated ((runLogin tc₁ w₁).2.eventsSince w₁) = some t₁)
    (hfail₁ : (clientFor tc₁ w₁ t₁).ValidateToken t₁ = some e₁)
    (hcand₂ : candidateValidated ((runLogin tc₂ w₂).2.eventsSince w₂) = some t₂)
    (hfail₂ : (clientFor tc₂ w₂ t₂).ValidateToken t₂ = some e₂) :
    (runLogin tc₁ w₁).1 = (runLogin tc₂ w₂).1 ∧
    (runLogin tc₁ w₁).1 = some "Error: Invalid GitHub token" := by
  have h₁ := (runLogin_rejected_candidate tc₁ w₁ t₁ hcand₁ (by rw [hfail₁]; simp)).1
  have h₂ := (runLogin_rejected_candidate tc₂ w₂ t₂ hcand₂ (by rw [hfail₂]; simp)).1
  exact ⟨by rw [h₁, h₂], h₁⟩

/-- C20, amended, at a rejected candidate and a candidate whose validation fails in
transport. -/
theorem C20_validation_failures_alike_witness :
    (runLogin
      (some { ValidateToken := fun _ => some "invalid token: 401 Bad credentials",
              GetUser := .error "error getting user" })
      { GetConfigDir := .ok "/home/u/.config/dotback", keyring := Keyring.mk [] none none,
        GITHUB_TOKEN := some "revoked-token", stdin := [],
        NewClient := fun _ => NewMockClient "" true "", trace := [] }).1 =
    (runLogin
      (some { ValidateToken := fun _ => some "invalid token: dial tcp: connection refused",
              GetUser := .error "error getting user" })
      { GetConfigDir := .ok "/home/u/.config/dotback", keyring := Keyring.mk [] none none,
        GITHUB_TOKEN := some "good-token", stdin := [],
        NewClient := fun _ => NewMockClient "" true "", trace := [] }).1 :=
  (C20_validation_failures_alike
    (some { ValidateToken := fun _ => some "invalid token: 401 Bad credentials",
            GetUser := .error "error getting user" })
    (some { ValidateToken := fun _ => some "invalid token: dial tcp: connection refused",
            GetUser := .error "error getting user" })
    { GetConfigDir := .ok "/home/u/.config/dotback", keyring := Keyring.mk [] none none,
      GITHUB_TOKEN := some "revoked-token", stdin := [],
      NewClient := fun _ => NewMockClient "" true "", trace := [] }
    { GetConfigDir := .ok "/home/u/.config/dotback", keyring := Keyring.mk [] none none,
      GITHUB_TOKEN := some "good-token", stdin := [],
      NewClient := fun _ => NewMockClient "" true "", trace := [] }
    "revoked-token" "good-token" "invalid token: 401 Bad credentials"
    "invalid token: dial tcp: connection refused" (by decide) rfl (by decide) rfl).1

/-- C21 fails as stated: with a stored token the client accepts, runLogin writes the
line "Successfully logged in as alice" and returns the "Already logged in" error; and
with a keyring that refuses the validated token, runLogin writes the line
"Successfully logged in as testuser", then calls SetToken and returns the store
error. -/
theorem C21_line_without_success_counterexample :
    (runLogin (some (NewMockClient "stored-token" false "alice"))
      { GetConfigDir := .ok "/home/u/.config/dotback",
        keyring := Keyring.mk [(("dotback", "github_token"), "stored-token")] none none,
        GITHUB_TOKEN := none, stdin := [],
        NewClient := fun _ => NewMockClient "" true "", trace := [] }).1 =
      some "Already logged in. Use 'logout' command to log out first" ∧
    (runLogin (some (NewMockClient "stored-token" false "alice"))
      { GetConfigDir := .ok "/home/u/.config/dotback",
        keyring := Keyring.mk [(("dotback", "github_token"), "stored-token")] none none,
        GITHUB_TOKEN := none, stdin := [],
        NewClient := fun _ => NewMockClient "" true "", trace := [] }).2.trace =
      [.getConfigDir, .getToken, .validateToken "stored-token", .getUser,
        .stdout "Successfully logged in as alice\n"] ∧
    (runLogin (some (NewMockClient "valid-token" false "testuser"))
      { GetConfigDir := .ok "/home/u/.config/dotback", keyring := Keyring.mk [] none (some 8),
        GITHUB_TOKEN := some "valid-token", stdin := [],
        NewClient := fun _ => NewMockClient "" true "", trace := [] }).1 =
      some "Error: Could not store token securely" ∧
    (runLogin (some (NewMockClient "valid-token" false "testuser"))
      { GetConfigDir := .ok "/home/u/.config/dotback", keyring := Keyring.mk [] none (some 8),
        GITHUB_TOKEN := some "valid-token", stdin := [],
        NewClient := fun _ => NewMockClient "" true "", trace := [] }).2.trace =
      [.getConfigDir, .getToken, .getenv "GITHUB_TOKEN", .validateToken "valid-token", .getUser,
        .stdout "Successfully logged in as testuser\n", .setToken "valid-token"] := by
  refine ⟨by decide, by decide, by decide, by decide⟩

/-- C21, amended: for every run of runLogin, a line "Successfully logged in as <user>"
is written to standard output if and only if runLogin returns nil, or refuses the login
as already logged in, or fails in storing the validated token; and the line is written
at most once. -/
theorem C21_success_line_written (testClient : Option GitHubClient) (w : World) :
    ((∃ e ∈ (runLogin testClient w).2.eventsSince w, e.isSuccessLine = true) ↔
      ((runLogin testClient w).1 = none ∨
        (runLogin testClient w).1 =
          some "Already logged in. Use 'logout' command to log out first" ∨
        (runLogin testClient w).1 = some "Error: Could not store token securely")) ∧
    (successLines ((runLogin testClient w).2.eventsSince w)).length ≤ 1 := by
  obtain ⟨post, htr, hcount⟩ := runLogin_successLines testClient w
  rw [eventsSince_append _ _ post htr]
  refine ⟨⟨?_, ?_⟩, ?_⟩
  · rintro ⟨e, he, hs⟩
    by_contra hnot
    rw [if_neg hnot] at hcount
    have hmem : e ∈ successLines post := List.mem_filter.mpr ⟨he, hs⟩
    rw [List.length_eq_zero.mp hcount] at hmem
    exact List.not_mem_nil _ hmem
  · intro hyes
    rw [if_pos hyes] at hcount
    obtain ⟨e, he⟩ := List.exists_mem_of_length_pos (by rw [hcount]; decide)
    exact ⟨e, (List.mem_filter.mp he).1, (List.mem_filter.mp he).2⟩
  · rw [hcount]
    split_ifs <;> decide

/-- C21 amended, at a login that succeeds: the success line is among the events. -/
theorem C21_success_line_written_witness :
    ∃ e ∈ (runLogin (some (NewMockClient "valid-token" false "testuser"))
      { GetConfigDir := .ok "/home/u/.config/dotback", keyring := Keyring.mk [] none none,
        GITHUB_TOKEN := some "valid-token", stdin := [],
        NewClient := fun _ => NewMockClient "" true "", trace := [] }).2.eventsSince
      { GetConfigDir := .ok "/home/u/.config/dotback", keyring := Keyring.mk [] none none,
        GITHUB_TOKEN := some "valid-token", stdin := [],
        NewClient := fun _ => NewMockClient "" true "", trace := [] },
      e.isSuccessLine = true :=
  (C21_success_line_written (some (NewMockClient "valid-token" false "testuser"))
    { GetConfigDir := .ok "/home/u/.config/dotback", keyring := Keyring.mk [] none none,
      GITHUB_TOKEN := some "valid-token", stdin := [],
      NewClient := fun _ => NewMockClient "" true "", trace := [] }).1.mpr (Or.inl (by decide))

end Dotback
